import Mathlib

/-!
# FFGL / Open Media Transport bridge: verification development

A shallow embedding of the frame relay (`OMTVideoBuffer`), the send plugin
(`OMTSend`: readback harvest, tick, send worker, frame rate), peer discovery
(`DiscoveryManager`) and the receive session (`OMTReceive`), with theorems
about their behaviour.

Conventions
* bytes and `uint32_t` / `size_t` values are natural numbers; wrap-around is
  written explicitly (`u32`, `usize`) wherever the source does arithmetic;
* a `std::vector<uint8_t>` is a `List Nat`; a raw pointer argument is the list
  of bytes of the object it points into;
* an operation whose C++ behaviour is undefined (array index out of range,
  `memcpy` leaving the source or destination object) returns `none`.
-/

namespace FFGLOMT

/-! ## Machine arithmetic and memory primitives -/

/-- Reduction of a natural number to `uint32_t`. -/
def u32 (n : Nat) : Nat := n % 2 ^ 32

/-- Reduction of a natural number to a 64-bit `size_t`. -/
def usize (n : Nat) : Nat := n % 2 ^ 64

/-- Model of `std::vector<uint8_t>::resize(n)`: keep the first `n` bytes, value-initialise
the rest. -/
def resize (v : List Nat) (n : Nat) : List Nat :=
  v.take n ++ List.replicate (n - v.length) 0

/-- Model of `std::memcpy(dst + dstOff, src + srcOff, n)`. Both ranges have to lie inside
their objects; otherwise the behaviour is undefined and the result is `none`. -/
def memcpy (dst : List Nat) (dstOff : Nat) (src : List Nat) (srcOff n : Nat) :
    Option (List Nat) :=
  if dstOff + n ≤ dst.length ∧ srcOff + n ≤ src.length then
    some (dst.take dstOff ++ (src.drop srcOff).take n ++ dst.drop (dstOff + n))
  else
    none

/-! ## `OMTVideoBuffer` (src/source/shared/OMTVideoBuffer.h) -/

/-- The struct `OMTVideoBuffer::Slot`. -/
structure Slot where
  width : Nat := 0
  height : Nat := 0
  stride : Nat := 0
  pixels : List Nat := []
  fresh : Bool := false
deriving DecidableEq, Repr

/-- The class `OMTVideoBuffer`: the two slots `mBuffers[0]`, `mBuffers[1]` and the `int`
back index. The mutex is not modelled: every member function runs entirely
under it, so calls are atomic. -/
structure OMTVideoBuffer where
  mBuffers : Slot × Slot := ({}, {})
  mBackIndex : Int := 0
deriving DecidableEq, Repr

/-- The element `mBuffers[i]`; `none` outside the array. -/
def OMTVideoBuffer.slot (vb : OMTVideoBuffer) (i : Int) : Option Slot :=
  if i = 0 then some vb.mBuffers.1
  else if i = 1 then some vb.mBuffers.2
  else none

/-- Assignment through the reference `mBuffers[i]`; `none` outside the array. -/
def OMTVideoBuffer.setSlot (vb : OMTVideoBuffer) (i : Int) (s : Slot) :
    Option OMTVideoBuffer :=
  if i = 0 then some { vb with mBuffers := (s, vb.mBuffers.2) }
  else if i = 1 then some { vb with mBuffers := (vb.mBuffers.1, s) }
  else none

/-- The member function `OMTVideoBuffer::Write(width, height, stride, pixels, dataBytes)`. -/
def OMTVideoBuffer.Write (vb : OMTVideoBuffer) (width height stride : Nat)
    (pixels : List Nat) (dataBytes : Nat) : Option OMTVideoBuffer := do
  let buf ← vb.slot vb.mBackIndex
  let resized := resize buf.pixels dataBytes
  let copied ← memcpy resized 0 pixels 0 dataBytes
  let vb1 ← vb.setSlot vb.mBackIndex
    { width := width, height := height, stride := stride, pixels := copied, fresh := true }
  pure { vb1 with mBackIndex := 1 - vb1.mBackIndex }

/-- What a call of `OMTVideoBuffer::Read` leaves behind: the buffer, the returned
`bool`, and the four by-reference arguments. -/
structure ReadResult where
  buffer : OMTVideoBuffer
  ret : Bool
  width : Nat
  height : Nat
  stride : Nat
  outPixels : List Nat
deriving DecidableEq, Repr

/-- The member function `OMTVideoBuffer::Read(width, height, stride, outPixels)`; the arguments are
the caller's values on entry. -/
def OMTVideoBuffer.Read (vb : OMTVideoBuffer) (width height stride : Nat)
    (outPixels : List Nat) : Option ReadResult := do
  let frontIndex := 1 - vb.mBackIndex
  let buf ← vb.slot frontIndex
  if !buf.fresh || buf.pixels.isEmpty then
    pure ⟨vb, false, width, height, stride, outPixels⟩
  else
    let vb1 ← vb.setSlot frontIndex { buf with pixels := outPixels, fresh := false }
    pure ⟨vb1, true, buf.width, buf.height, buf.stride, buf.pixels⟩

/-- The index is one of the two array positions. -/
def OMTVideoBuffer.indexOk (vb : OMTVideoBuffer) : Prop :=
  vb.mBackIndex = 0 ∨ vb.mBackIndex = 1

instance (vb : OMTVideoBuffer) : Decidable vb.indexOk := by
  unfold OMTVideoBuffer.indexOk; infer_instance

/-- A call made on an `OMTVideoBuffer`: `Write` with its five arguments, or `Read`
with the values the caller's four by-reference arguments hold on entry. -/
inductive Op where
  | write (width height stride : Nat) (pixels : List Nat) (dataBytes : Nat)
  | read (width height stride : Nat) (outPixels : List Nat)
deriving DecidableEq, Repr

/-- A `Write` is well formed when `pixels` points to exactly `dataBytes` bytes. -/
def Op.wf : Op → Prop
  | .write _ _ _ pixels dataBytes => pixels.length = dataBytes
  | .read _ _ _ _ => True

instance (op : Op) : Decidable op.wf := by
  cases op <;> unfold Op.wf <;> infer_instance

/-- What the caller observes from one call: a completed `Write`, a `Read` that
returned false, or a `Read` that returned true with the frame it delivered. -/
inductive Outcome where
  | wrote
  | nothing
  | got (width height stride : Nat) (pixels : List Nat)
deriving DecidableEq, Repr

/-- One call on the buffer, with what the caller observes. -/
def step (vb : OMTVideoBuffer) : Op → Option (OMTVideoBuffer × Outcome)
  | .write width height stride pixels dataBytes =>
    match vb.Write width height stride pixels dataBytes with
    | none => none
    | some vb1 => some (vb1, .wrote)
  | .read width height stride outPixels =>
    match vb.Read width height stride outPixels with
    | none => none
    | some r =>
      some (r.buffer,
        if r.ret then .got r.width r.height r.stride r.outPixels else .nothing)

/-- A finite sequence of calls, executed in order; the history pairs every call
with its outcome. -/
def exec : OMTVideoBuffer → List Op → Option (OMTVideoBuffer × List (Op × Outcome))
  | vb, [] => some (vb, [])
  | vb, op :: rest =>
    match step vb op with
    | none => none
    | some (vb1, o) =>
      match exec vb1 rest with
      | none => none
      | some (vb2, hist) => some (vb2, (op, o) :: hist)

/-- A history entry that is a `Read` which returned false. -/
def isFailedRead (e : Op × Outcome) : Prop :=
  ∃ width height stride outPixels, e = (Op.read width height stride outPixels, Outcome.nothing)

/-- The slot `Read` looks at: `mBuffers[1 - mBackIndex]` for a valid index. -/
def OMTVideoBuffer.front (vb : OMTVideoBuffer) : Slot :=
  if vb.mBackIndex = 1 then vb.mBuffers.1 else vb.mBuffers.2

/-- The history `hist` ends with `Write(width, height, stride, pixels, _)` followed
only by failed reads. -/
def latestWrite (hist : List (Op × Outcome)) (width height stride : Nat)
    (pixels : List Nat) : Prop :=
  ∃ before dataBytes after,
    hist = before ++ (Op.write width height stride pixels dataBytes, Outcome.wrote) :: after ∧
    ∀ e ∈ after, isFailedRead e

/-- The invariant carried along a run from the empty buffer. -/
def RunInv (ops : List Op) (vb : OMTVideoBuffer) (hist : List (Op × Outcome)) : Prop :=
  vb.indexOk ∧ hist.map Prod.fst = ops ∧
  (vb.front.fresh = true → vb.front.pixels ≠ [] →
    latestWrite hist vb.front.width vb.front.height vb.front.stride vb.front.pixels) ∧
  (∀ before width height stride outPixels w h s px after,
    hist = before ++ (Op.read width height stride outPixels, Outcome.got w h s px) :: after →
    latestWrite before w h s px)

/-- A sample run: two deposits, a withdrawal, a second withdrawal, a deposit and a
withdrawal. -/
def sampleOps : List Op :=
  [.write 1 1 4 [1, 2, 3, 4] 4, .write 1 1 4 [5, 6, 7, 8] 4, .read 0 0 0 [],
   .read 0 0 0 [], .write 2 1 8 [9, 9, 9, 9, 8, 8, 8, 8] 8, .read 0 0 0 [1, 2, 3, 4]]

/-! ## Readback harvest (src/source/plugins/OMTSend/OMTSend.cpp, lines 189-212) -/

/-- Subtraction of two `uint32_t` values. -/
def u32sub (a b : Nat) : Nat := (a + 2 ^ 32 - b) % 2 ^ 32

/-- The struct `OMTSend::PendingFrame`: four `uint32_t` fields. -/
structure PendingFrame where
  w : Nat
  h : Nat
  hw : Nat
  stride : Nat
deriving DecidableEq, Repr

/-- The destination offset `row * pf.stride`, computed in `uint32_t`. -/
def dstOffset (pf : PendingFrame) (row : Nat) : Nat := u32 (row * pf.stride)

/-- The source offset `( pf.h - 1 - row ) * pf.hw * 4`, computed in `uint32_t`. -/
def srcOffset (pf : PendingFrame) (row : Nat) : Nat :=
  u32 (u32 (u32sub (u32sub pf.h 1) row * pf.hw) * 4)

/-- The loop `for( uint32_t row = 0; row < pf.h; ++row ) std::memcpy( ... )`, with
`remaining = pf.h - row` iterations still to run. -/
def harvestRows (pf : PendingFrame) (src : List Nat) :
    (remaining : Nat) → (row : Nat) → (crop : List Nat) → Option (List Nat)
  | 0, _, crop => some crop
  | remaining + 1, row, crop =>
    match memcpy crop (dstOffset pf row) src (srcOffset pf row) pf.stride with
    | none => none
    | some crop1 => harvestRows pf src remaining (u32 (row + 1)) crop1

/-- The body of `if( src )` in step 1 of `OMTSend::ProcessOpenGL`: resize the crop
buffer, copy the rows, deposit into `mVideoBuffer`. `src` is the mapped read
buffer. The result is the new `mCropBuf` and the new `mVideoBuffer`. -/
def harvest (pf : PendingFrame) (src : List Nat) (mCropBuf : List Nat)
    (mVideoBuffer : OMTVideoBuffer) : Option (List Nat × OMTVideoBuffer) :=
  match harvestRows pf src pf.h 0 (resize mCropBuf (usize (pf.stride * pf.h))) with
  | none => none
  | some crop =>
    match mVideoBuffer.Write pf.w pf.h pf.stride crop crop.length with
    | none => none
    | some vb => some (crop, vb)

/-- Bytes `[r * rowBytes, r * rowBytes + n)` of a buffer: the first `n` bytes of
row `r` when rows are `rowBytes` bytes apart. -/
def rowOf (buf : List Nat) (rowBytes r n : Nat) : List Nat :=
  (buf.drop (r * rowBytes)).take n

/-! ## `DiscoveryManager` (src/source/plugins/OMTReceive/OMTReceive.cpp, lines 92-154) -/

/-- The struct `DiscoveryManager::SourceList`. An entry of `vals` is the `float` `(float)i`
of a list index `i`; it is kept as that index. -/
structure SourceList where
  addresses : List String := []
  names : List String := []
  vals : List Nat := []
  dirty : Bool := false
deriving DecidableEq, Repr

/-- The data members of `DiscoveryManager` guarded by `mMutex`; `mVersion` is a
`uint32_t`. -/
structure DiscoveryManager where
  mAddresses : List String := []
  mCurrent : SourceList := {}
  mVersion : Nat := 0
deriving DecidableEq, Repr

/-- What `DiscoveryManager::Poll` leaves behind: the manager, the returned list and
the caller's by-reference `instanceVersion`. -/
structure PollResult where
  manager : DiscoveryManager
  result : SourceList
  instanceVersion : Nat
deriving DecidableEq, Repr

/-- The member function `DiscoveryManager::Poll(instanceVersion)`. -/
def DiscoveryManager.Poll (dm : DiscoveryManager) (instanceVersion : Nat) : PollResult :=
  let result : SourceList := { dm.mCurrent with dirty := decide (instanceVersion ≠ dm.mVersion) }
  ⟨dm, result, dm.mVersion⟩

/-- The loop `for(int i=0; i<(int)found.size(); ++i)` of `ThreadFunc`, pushing
`found[i]` and `(float)i`; `remaining` iterations are still to run. -/
def fillNames (found : List String) :
    (remaining : Nat) → (i : Nat) → List String → List Nat → List String × List Nat
  | 0, _, names, vals => (names, vals)
  | remaining + 1, i, names, vals =>
    fillNames found remaining (i + 1) (names ++ [found.getD i ""]) (vals ++ [i])

/-- One pass of the block of `DiscoveryManager::ThreadFunc` that runs under the
mutex (lines 130-149); `found` is the vector built from the enumeration just
before it. -/
def DiscoveryManager.ThreadFuncStep (dm : DiscoveryManager) (found : List String) :
    DiscoveryManager :=
  if found ≠ dm.mAddresses then
    let filled : List String × List Nat :=
      if found.isEmpty then (["No sources"], [0])
      else fillNames found found.length 0 [] []
    { mAddresses := found,
      mCurrent := { dm.mCurrent with addresses := found, names := filled.1, vals := filled.2 },
      mVersion := u32 (dm.mVersion + 1) }
  else dm

/-- Successive passes of the discovery loop, one per enumerated list. -/
def DiscoveryManager.run (dm : DiscoveryManager) (founds : List (List String)) :
    DiscoveryManager :=
  founds.foldl DiscoveryManager.ThreadFuncStep dm

/-- Enumerations that alternate between one peer and none. -/
def alternating (n : Nat) : List (List String) :=
  (List.range n).map (fun i => if i % 2 = 0 then ["a"] else [])

/-! ## `OMTReceive` session (src/source/plugins/OMTReceive/OMTReceive.cpp) -/

/-- Conversion `(uint32_t)i` of an `int`. -/
def u32OfInt (i : Int) : Nat := (i % 2 ^ 32).toNat

/-- Where a worker executing `OMTReceive::ReceiveThreadFunc` stands: before
`omt_receive_create` has returned, inside the `while(mRunReceive)` loop, or after
the function has returned. -/
inductive WorkerPhase where
  | opening
  | receiving
  | returned
deriving DecidableEq, Repr

/-- The thread of execution behind a joinable `std::thread`: the `address`
argument it was started with, its phase and its local `stagingPixels`. -/
structure Worker where
  address : String
  phase : WorkerPhase := .opening
  stagingPixels : List Nat := []
deriving DecidableEq, Repr

/-- The struct `OMTReceive::Frame`. -/
structure Frame where
  w : Nat := 0
  h : Nat := 0
  pixels : List Nat := []
  fresh : Bool := false
deriving DecidableEq, Repr

/-- The fields of an `OMTMediaFrame` the receive worker reads. `Data` is `none`
for a null pointer and otherwise the `DataLength` bytes it points to, so
`DataLength` is the length of that list. -/
structure MediaFrame where
  Width : Int
  Height : Int
  Data : Option (List Nat)
deriving DecidableEq, Repr

/-- The values of the `float` `mSelected`. `halves k` is the float `k / 2`, a whole
number of halves (`halves 2` is `1.0f`, `halves (-2)` is `-1.0f`, `halves 1` is
`0.5f`); for `|k| <= 2^23` both `k / 2` and `k / 2 + 0.5` are exact in binary32.
`other i` is any other float (one that is not a whole number of halves, or is
too large for the sum to be exact), known only by the `int` that
`(int)(x + 0.5f)` yields for it. -/
inductive SelFloat where
  | halves (k : Int)
  | other (converted : Int)
deriving DecidableEq, Repr

/-- The expression `(int)(x + 0.5f)` of `OMTReceive.cpp` lines 247 and 315 on the
float `x`: the float sum, converted to `int` by truncation toward zero. For
`halves k` the sum is exactly `(k + 1) / 2`. -/
def SelFloat.toIndex : SelFloat → Int
  | .halves k => Int.tdiv (k + 1) 2
  | .other i => i

/-- The members of `OMTReceive` the session logic uses. `mReceiveThread` is `none`
for a `std::thread` that is not joinable and holds the thread of execution
otherwise. GL objects, the shader, the host's parameter elements
(`SetParamElements`) and the log file are not modelled. -/
structure OMTReceive where
  mReady : Bool := false
  mHasFrame : Bool := false
  mVideoTexW : Nat := 0
  mVideoTexH : Nat := 0
  mUploadPixels : List Nat := []
  mUploadW : Nat := 0
  mUploadH : Nat := 0
  mAddresses : List String := []
  mSelected : SelFloat := .halves 0
  mLogging : Bool := false
  mSourceVersion : Nat := 0xFFFFFFFF
  mReceiveThread : Option Worker := none
  mRunReceive : Bool := false
  mConnectedAddress : String := ""
  mFrame : Frame := {}
deriving DecidableEq, Repr

/-- The test `mReceiveThread.joinable()`. -/
def OMTReceive.joinable (s : OMTReceive) : Bool := s.mReceiveThread.isSome

/-- Lines 391-402 of `ReceiveThreadFunc`: copy the payload into `stagingPixels`
(`resize` to `DataLength`, `memcpy` of `DataLength` bytes), then, under
`mFrameMutex`, set `w`, `h`, swap the vectors and mark the frame fresh. -/
def OMTReceive.deposit (s : OMTReceive) (wk : Worker) (width height : Int)
    (data : List Nat) : OMTReceive :=
  let resized := resize wk.stagingPixels data.length
  let staging := match memcpy resized 0 data 0 data.length with
    | some copied => copied
    | none => resized
  { s with
    mFrame := { w := u32OfInt width, h := u32OfInt height, pixels := staging, fresh := true },
    mReceiveThread := some { wk with stagingPixels := s.mFrame.pixels } }

/-- The body of the `while(mRunReceive)` loop for what `omt_receive` returned
(`none` for a null frame): frames without data are skipped, others deposited. -/
def OMTReceive.loopBody (s : OMTReceive) (wk : Worker) (frame : Option MediaFrame) :
    OMTReceive :=
  match frame with
  | none => s
  | some f =>
    match f.Data with
    | none => s
    | some data => if data.length ≤ 0 then s else s.deposit wk f.Width f.Height data

/-- Worker step: `omt_receive_create` returns. On failure the worker clears
`mRunReceive` and returns; on success it enters the loop. -/
def OMTReceive.workerOpen (s : OMTReceive) (ok : Bool) : OMTReceive :=
  match s.mReceiveThread with
  | none => s
  | some wk =>
    if wk.phase = .opening then
      if ok then { s with mReceiveThread := some { wk with phase := .receiving } }
      else { s with mRunReceive := false, mReceiveThread := some { wk with phase := .returned } }
    else s

/-- Worker step: one test of `while(mRunReceive)` followed, when the flag is set,
by one pass through the loop body; when it is clear the receiver is destroyed and
the function returns. -/
def OMTReceive.workerLoop (s : OMTReceive) (frame : Option MediaFrame) : OMTReceive :=
  match s.mReceiveThread with
  | none => s
  | some wk =>
    if wk.phase = .receiving then
      if s.mRunReceive then s.loopBody wk frame
      else { s with mReceiveThread := some { wk with phase := .returned } }
    else s

/-- The call `mReceiveThread.join()`: the caller waits until the worker function has
returned. A worker inside the loop may still complete the pass it is in, with
`inflight` what its pending `omt_receive` call returns; afterwards the handle is
not joinable. -/
def OMTReceive.join (s : OMTReceive) (inflight : Option MediaFrame) : OMTReceive :=
  match s.mReceiveThread with
  | none => s
  | some wk =>
    let s1 := if wk.phase = .receiving then s.loopBody wk inflight else s
    { s1 with mReceiveThread := none }

/-- The member function `OMTReceive::DisconnectSource()`. -/
def OMTReceive.DisconnectSource (s : OMTReceive) (inflight : Option MediaFrame) : OMTReceive :=
  let s1 := { s with mRunReceive := false }
  let s2 := if s1.joinable then s1.join inflight else s1
  { s2 with mConnectedAddress := "" }

/-- The member function `OMTReceive::Connect(address)`; the new `std::thread` starts a worker in its
opening phase. -/
def OMTReceive.Connect (s : OMTReceive) (address : String) (inflight : Option MediaFrame) :
    OMTReceive :=
  if address = s.mConnectedAddress then s
  else
    let s1 := s.DisconnectSource inflight
    { s1 with
      mHasFrame := false,
      mConnectedAddress := address,
      mRunReceive := true,
      mReceiveThread := some { address := address } }

/-- The discovery update of `OMTReceive::ProcessOpenGL` (lines 231-252). -/
def OMTReceive.discoveryUpdate (s : OMTReceive) (dm : DiscoveryManager)
    (inflight : Option MediaFrame) : OMTReceive :=
  let polled := dm.Poll s.mSourceVersion
  let sl := polled.result
  let s1 := { s with mSourceVersion := polled.instanceVersion }
  if sl.dirty then
    let s2 := { s1 with mAddresses := sl.addresses }
    if sl.addresses.length = 1 ∧ s2.mConnectedAddress ≠ sl.addresses.getD 0 "" then
      s2.Connect (sl.addresses.getD 0 "") inflight
    else if !sl.addresses.isEmpty then
      let idx := s2.mSelected.toIndex
      if idx ≥ 0 ∧ idx < (sl.addresses.length : Int) ∧
          sl.addresses.getD idx.toNat "" ≠ s2.mConnectedAddress then
        s2.Connect (sl.addresses.getD idx.toNat "") inflight
      else s2
    else s2
  else s1

/-- The reconnect check of `OMTReceive::ProcessOpenGL` (lines 254-261). -/
def OMTReceive.reconnectCheck (s : OMTReceive) (inflight : Option MediaFrame) : OMTReceive :=
  if !s.mConnectedAddress.isEmpty ∧ !s.joinable then
    let addr := s.mConnectedAddress
    let s1 := { s with mConnectedAddress := "" }
    s1.Connect addr inflight
  else s

/-- The block of `OMTReceive::ProcessOpenGL` under `mFrameMutex` (lines 266-275). -/
def OMTReceive.pullFrame (s : OMTReceive) : OMTReceive :=
  if s.mFrame.fresh then
    { s with
      mUploadW := s.mFrame.w,
      mUploadH := s.mFrame.h,
      mUploadPixels := s.mFrame.pixels,
      mFrame := { s.mFrame with pixels := s.mUploadPixels, fresh := false } }
  else s

/-- The upload block of `OMTReceive::ProcessOpenGL` (lines 278-293), as far as it
changes data members. -/
def OMTReceive.upload (s : OMTReceive) : OMTReceive :=
  if s.mUploadW ≠ 0 ∧ s.mUploadH ≠ 0 ∧ !s.mUploadPixels.isEmpty then
    let s1 :=
      if s.mUploadW ≠ s.mVideoTexW ∨ s.mUploadH ≠ s.mVideoTexH then
        { s with mVideoTexW := s.mUploadW, mVideoTexH := s.mUploadH }
      else s
    { s1 with mHasFrame := true, mUploadW := 0, mUploadH := 0 }
  else s

/-- The member function `OMTReceive::ProcessOpenGL`: one tick on the GL thread, reading the discovery
singleton `dm`. -/
def OMTReceive.ProcessOpenGL (s : OMTReceive) (dm : DiscoveryManager)
    (inflight : Option MediaFrame) : OMTReceive :=
  if !s.mReady then s
  else (((s.discoveryUpdate dm inflight).reconnectCheck inflight).pullFrame).upload

/-- The call `OMTReceive::SetFloatParameter(PARAM_SOURCE, val)`. -/
def OMTReceive.SetFloatParameterSource (s : OMTReceive) (val : SelFloat)
    (inflight : Option MediaFrame) : OMTReceive :=
  let s1 := { s with mSelected := val }
  let i := val.toIndex
  if i ≥ 0 ∧ i < (s1.mAddresses.length : Int) then
    s1.Connect (s1.mAddresses.getD i.toNat "") inflight
  else s1

/-- The member function `OMTReceive::InitGL`, successful case, as far as it changes data members. -/
def OMTReceive.InitGL (s : OMTReceive) : OMTReceive := { s with mReady := true }

/-- The member function `OMTReceive::DeInitGL`, as far as it changes data members. -/
def OMTReceive.DeInitGL (s : OMTReceive) (inflight : Option MediaFrame) : OMTReceive :=
  { s.DisconnectSource inflight with mVideoTexW := 0, mVideoTexH := 0, mReady := false }

/-- A session after `InitGL` whose first tick saw the single peer `"a"`, connected
to it, and whose worker then failed to open the connection and returned. -/
def lostSession : OMTReceive :=
  ((OMTReceive.InitGL {}).ProcessOpenGL (DiscoveryManager.ThreadFuncStep {} ["a"]) none).workerOpen
    false

/-! ## `OMTSend` (src/source/plugins/OMTSend/OMTSend.cpp) -/

/-- The two `FFResult` codes the plugin returns. -/
inductive FFResult where
  | FF_SUCCESS
  | FF_FAIL
deriving DecidableEq, Repr

/-- The fields of the host's `FFGLTextureStruct` (all 32-bit unsigned). -/
structure FFGLTextureStruct where
  Width : Nat
  Height : Nat
  HardwareWidth : Nat
  HardwareHeight : Nat
  Handle : Nat
deriving DecidableEq, Repr

/-- Where a worker executing `OMTSend::SendThreadFunc` stands: before
`omt_send_create` has returned, inside the `while( mRunSendThread )` loop, or
after the function has returned. -/
inductive SendPhase where
  | opening
  | sending
  | returned
deriving DecidableEq, Repr

/-- The thread of execution behind a joinable `mSendThread`: its phase and its
local `pixelBuf`. -/
structure SendWorker where
  phase : SendPhase := .opening
  pixelBuf : List Nat := []
deriving DecidableEq, Repr

/-- The cast `(int)n` of an unsigned value to the 32-bit `int`: the low 32 bits,
read as two's complement, so a value from `2^31` on comes out negative. -/
def toInt32 (n : Nat) : Int :=
  if n % 2 ^ 32 < 2 ^ 31 then ((n % 2 ^ 32 : Nat) : Int)
  else ((n % 2 ^ 32 : Nat) : Int) - 2 ^ 32

/-- The fields of the `OMTMediaFrame` handed to `omt_send` that vary from frame to
frame. `Width`, `Height`, `Stride` and `DataLength` are `int` fields, filled by the
casts `(int)w`, `(int)h`, `(int)stride` and `(int)pixelBuf.size()`. -/
structure SentFrame where
  Width : Int
  Height : Int
  Stride : Int
  FrameRateN : Int
  FrameRateD : Int
  Data : List Nat
  DataLength : Int
deriving DecidableEq, Repr

/-- The members of `OMTSend` the send path uses. `mSendThread` is `none` for a
`std::thread` that is not joinable. `mOMTSender` records whether the pointer is
non-null. The `float` `mFrameRateOption` is kept as the integer
`(int)(mFrameRateOption + 0.5f)`. GL objects (shader, vertex buffers, the two
pixel buffer objects), `mQuality`, `mSourceName` and log files are not
modelled; what `glMapBuffer` returns is an input of the tick. -/
structure OMTSend where
  mShaderReady : Bool := false
  mVideoBuffer : OMTVideoBuffer := {}
  mPBOWriteIdx : Int := 0
  mPBOReady : Bool := false
  mPBOSize : Nat := 0
  mPending : PendingFrame := ⟨0, 0, 0, 0⟩
  mCropBuf : List Nat := []
  mDebugLogged : Bool := false
  mSendThread : Option SendWorker := none
  mRunSendThread : Bool := false
  mOMTSender : Bool := false
  mFrameRateOption : Int := 5
  mLoggingEnabled : Bool := false
  mFrameRateN : Int := 60
  mFrameRateD : Int := 1
deriving DecidableEq, Repr

/-- The member function `OMTSend::UpdateFrameRate`, with `idx` the integer
`(int)( optionValue + 0.5f )` the `switch` runs on. -/
def OMTSend.UpdateFrameRate (s : OMTSend) (idx : Int) : OMTSend :=
  if idx = 0 then { s with mFrameRateN := 24, mFrameRateD := 1 }
  else if idx = 1 then { s with mFrameRateN := 25, mFrameRateD := 1 }
  else if idx = 2 then { s with mFrameRateN := 30000, mFrameRateD := 1001 }
  else if idx = 3 then { s with mFrameRateN := 30, mFrameRateD := 1 }
  else if idx = 4 then { s with mFrameRateN := 50, mFrameRateD := 1 }
  else { s with mFrameRateN := 60, mFrameRateD := 1 }

/-- The call `OMTSend::SetFloatParameter( PARAM_FRAMERATE, value )`, with `idx` the
integer `(int)( value + 0.5f )`. -/
def OMTSend.SetFloatParameterFrameRate (s : OMTSend) (idx : Int) : OMTSend :=
  ({ s with mFrameRateOption := idx }).UpdateFrameRate idx

/-- The member function `OMTSend::StartSendThread`. Assigning a new `std::thread` to
a handle that is still joinable calls `std::terminate`; that is `none`. -/
def OMTSend.StartSendThread (s : OMTSend) : Option OMTSend :=
  if s.mRunSendThread then some s
  else
    match s.mSendThread with
    | some _ => none
    | none => some { s with mRunSendThread := true, mSendThread := some {} }

/-- Worker step: `omt_send_create` returns. On failure the function returns at
once; on success it enters the loop. -/
def OMTSend.sendWorkerOpen (s : OMTSend) (ok : Bool) : OMTSend :=
  match s.mSendThread with
  | none => s
  | some wk =>
    if wk.phase = .opening then
      if ok then { s with mOMTSender := true, mSendThread := some { wk with phase := .sending } }
      else { s with mOMTSender := false, mSendThread := some { wk with phase := .returned } }
    else s

/-- The body of the `while( mRunSendThread )` loop: one `Read` from the video
buffer and, when it returned true, the frame handed to `omt_send`. -/
def OMTSend.sendLoopBody (s : OMTSend) (wk : SendWorker) :
    Option (OMTSend × Option SentFrame) :=
  match s.mVideoBuffer.Read 0 0 0 wk.pixelBuf with
  | none => none
  | some r =>
    let s1 := { s with mVideoBuffer := r.buffer,
                       mSendThread := some { wk with pixelBuf := r.outPixels } }
    if r.ret then
      some (s1, some ⟨toInt32 r.width, toInt32 r.height, toInt32 r.stride,
        s.mFrameRateN, s.mFrameRateD, r.outPixels, toInt32 (usize r.outPixels.length)⟩)
    else some (s1, none)

/-- Worker step: one test of `while( mRunSendThread )` followed, when the flag is
set, by one pass through the loop body; when it is clear the sender is destroyed
and the function returns. -/
def OMTSend.sendWorkerLoop (s : OMTSend) : Option (OMTSend × Option SentFrame) :=
  match s.mSendThread with
  | none => some (s, none)
  | some wk =>
    if wk.phase = .sending then
      if s.mRunSendThread then s.sendLoopBody wk
      else some ({ s with mOMTSender := false,
                          mSendThread := some { wk with phase := .returned } }, none)
    else some (s, none)

/-- The member function `OMTSend::StopSendThread`. A worker inside the loop may
still complete the pass it is in (`midPass`) before it sees the cleared flag. -/
def OMTSend.StopSendThread (s : OMTSend) (midPass : Bool) : Option OMTSend :=
  let s1 := { s with mRunSendThread := false }
  match s1.mSendThread with
  | none => some s1
  | some wk =>
    if wk.phase = .sending then
      if midPass then
        match s1.sendLoopBody wk with
        | none => none
        | some (s2, _) => some { s2 with mOMTSender := false, mSendThread := none }
      else some { s1 with mOMTSender := false, mSendThread := none }
    else some { s1 with mOMTSender := false, mSendThread := none }

/-- The padded transfer size `(size_t)hw * hh * 4` of a texture. -/
def hwSize (tex : FFGLTextureStruct) : Nat :=
  usize (usize (tex.HardwareWidth * tex.HardwareHeight) * 4)

/-- The member function `OMTSend::ProcessOpenGL`: one tick on the GL thread.
`input` is `pGL->inputTextures[ 0 ]` (`none` when there is no input texture) and
`mapped` is what `glMapBuffer` returns for the read buffer (`none` for null). -/
def OMTSend.ProcessOpenGL (s : OMTSend) (input : Option FFGLTextureStruct)
    (mapped : Option (List Nat)) : Option (OMTSend × FFResult) :=
  match input with
  | none => some (s, .FF_FAIL)
  | some inputTex =>
    if !s.mShaderReady then some (s, .FF_FAIL)
    else
      match (if !s.mRunSendThread then s.StartSendThread else some s) with
      | none => none
      | some s1 =>
        if inputTex.Handle = 0 ∨ inputTex.Width = 0 ∨ inputTex.Height = 0 ∨
            inputTex.HardwareWidth = 0 ∨ inputTex.HardwareHeight = 0 then
          some (s1, .FF_SUCCESS)
        else
          let w := inputTex.Width
          let h := inputTex.Height
          let stride := u32 (w * 4)
          let hw := inputTex.HardwareWidth
          let s2 :=
            if hwSize inputTex ≠ s1.mPBOSize then
              { s1 with mPBOSize := hwSize inputTex, mPBOReady := false }
            else s1
          let writeIdx := 1 - s2.mPBOWriteIdx
          let harvested : Option OMTSend :=
            if s2.mPBOReady then
              match mapped with
              | none => some s2
              | some src =>
                match harvest s2.mPending src s2.mCropBuf s2.mVideoBuffer with
                | none => none
                | some (crop, vb) => some { s2 with mCropBuf := crop, mVideoBuffer := vb }
            else some s2
          match harvested with
          | none => none
          | some s3 =>
            let s4 := { s3 with mPending := ⟨w, h, hw, stride⟩,
                                mPBOWriteIdx := writeIdx, mPBOReady := true }
            let s5 :=
              if !s4.mDebugLogged ∧ s4.mPBOReady ∧ s4.mLoggingEnabled then
                { s4 with mDebugLogged := true }
              else s4
            some (s5, .FF_SUCCESS)

/-- The member function `OMTSend::InitGL`, successful case, as far as it changes
data members. -/
def OMTSend.InitGL (s : OMTSend) : OMTSend := { s with mShaderReady := true }

/-- The member function `OMTSend::DeInitGL`, as far as it changes data members. -/
def OMTSend.DeInitGL (s : OMTSend) (midPass : Bool) : Option OMTSend :=
  match s.StopSendThread midPass with
  | none => none
  | some s1 => some { s1 with mPBOReady := false, mPBOSize := 0, mShaderReady := false }

/-- A 2x2 texture padded to 4x2. -/
def sampleTex : FFGLTextureStruct := ⟨2, 2, 4, 2, 7⟩

/-- A send plugin after `InitGL` whose first tick started the send worker and
whose worker then failed in `omt_send_create` and returned. -/
def failedSender : Option OMTSend :=
  match (OMTSend.InitGL {}).ProcessOpenGL (some sampleTex) none with
  | none => none
  | some (s, _) => some (s.sendWorkerOpen false)

/-- The pair `(mFrameRateN, mFrameRateD)`. -/
def OMTSend.frameRate (s : OMTSend) : Int × Int := (s.mFrameRateN, s.mFrameRateD)

/-- The send plugin after `InitGL` and one tick with `sampleTex`: the worker is
started, a transfer is pending and the buffers are sized for 4x2 pixels. -/
def pendingState : OMTSend :=
  { mShaderReady := true, mPBOWriteIdx := 1, mPBOReady := true, mPBOSize := 32,
    mPending := ⟨2, 2, 4, 8⟩, mSendThread := some {}, mRunSendThread := true }

/-- The texture of `sampleTex` after the host padded it to 8x2. -/
def widerTex : FFGLTextureStruct := ⟨2, 2, 8, 2, 7⟩

/-- A texture one pixel wide and `2^29 + 1` pixels high, padded to a width of 2:
its padded size is `2 * (2^29 + 1) * 4 = 2^32 + 8` bytes. -/
def tallTex : FFGLTextureStruct := ⟨1, 2 ^ 29 + 1, 2, 2 ^ 29 + 1, 7⟩

/-- The send plugin after `InitGL` and one tick with `tallTex`: the worker is
started, a transfer is pending and the buffers are sized for `2^32 + 8` bytes. -/
def tallPending : OMTSend :=
  { mShaderReady := true, mPBOWriteIdx := 1, mPBOReady := true, mPBOSize := 2 ^ 32 + 8,
    mPending := ⟨1, 2 ^ 29 + 1, 2, 4⟩, mSendThread := some {}, mRunSendThread := true }

/-- A 1x1 texture that the host did not pad. -/
def tinyTex : FFGLTextureStruct := ⟨1, 1, 1, 1, 7⟩

/-- The send plugin after `InitGL` and one tick with `tinyTex`: the worker is
started, a transfer is pending and the buffers are sized for one pixel (4 bytes). -/
def tinyPending : OMTSend :=
  { mShaderReady := true, mPBOWriteIdx := 1, mPBOReady := true, mPBOSize := 4,
    mPending := ⟨1, 1, 1, 4⟩, mSendThread := some {}, mRunSendThread := true }

/-- A texture whose padded size `HardwareWidth * HardwareHeight * 4` is `2^64 + 4`:
`2147418113 * 2147549185 = 2^62 + 1`. -/
def overflowTex : FFGLTextureStruct := ⟨1, 1, 2147418113, 2147549185, 7⟩

/-- The calls on a receive plugin and the steps of its worker that move the
session state. -/
inductive RxAction where
  | initGL
  | deInitGL (inflight : Option MediaFrame)
  | connect (address : String) (inflight : Option MediaFrame)
  | disconnect (inflight : Option MediaFrame)
  | tick (dm : DiscoveryManager) (inflight : Option MediaFrame)
  | setSource (val : SelFloat) (inflight : Option MediaFrame)
  | workerOpen (ok : Bool)
  | workerLoop (frame : Option MediaFrame)
deriving DecidableEq, Repr

/-- One action on the session. -/
def OMTReceive.act (s : OMTReceive) : RxAction → OMTReceive
  | .initGL => s.InitGL
  | .deInitGL inflight => s.DeInitGL inflight
  | .connect address inflight => s.Connect address inflight
  | .disconnect inflight => s.DisconnectSource inflight
  | .tick dm inflight => s.ProcessOpenGL dm inflight
  | .setSource i inflight => s.SetFloatParameterSource i inflight
  | .workerOpen ok => s.workerOpen ok
  | .workerLoop frame => s.workerLoop frame

/-- A finite sequence of actions, in order. -/
def OMTReceive.runActions (s : OMTReceive) (actions : List RxAction) : OMTReceive :=
  actions.foldl OMTReceive.act s

/-- The session invariant: a non-empty stored address comes with a joinable
thread handle. -/
def OMTReceive.addressHasThread (s : OMTReceive) : Prop :=
  (s.mConnectedAddress.isEmpty || s.joinable) = true

/-! ## The two mailboxes side by side -/

/-- A mailbox operation: the deposit of a frame, or a withdrawal. -/
inductive MailOp where
  | deposit (w h stride : Nat) (pixels : List Nat)
  | withdraw
deriving DecidableEq, Repr

/-- A deposit the two paths can both make: 32-bit dimensions and at least one
byte of data. -/
def MailOp.wf : MailOp → Prop
  | .deposit w h _ pixels => w < 2 ^ 32 ∧ h < 2 ^ 32 ∧ pixels ≠ []
  | .withdraw => True

instance (op : MailOp) : Decidable op.wf := by
  cases op <;> unfold MailOp.wf <;> infer_instance

/-- What a withdrawal shows the reader: `none` for no new data, or the width,
height and bytes delivered. -/
abbrev Delivery := Option (Nat × Nat × List Nat)

/-- Send path: `OMTVideoBuffer` together with the reader's `pixelBuf`. A deposit is
`Write` (as the harvest calls it, `dataBytes` being the size of the buffer
passed), a withdrawal is the `Read( w, h, stride, pixelBuf )` of
`SendThreadFunc`, whose `w`, `h`, `stride` start at 0. -/
def sendMailStep (st : OMTVideoBuffer × List Nat) :
    MailOp → Option ((OMTVideoBuffer × List Nat) × List Delivery)
  | .deposit w h stride pixels =>
    match st.1.Write w h stride pixels pixels.length with
    | none => none
    | some vb => some ((vb, st.2), [])
  | .withdraw =>
    match st.1.Read 0 0 0 st.2 with
    | none => none
    | some r =>
      some ((r.buffer, r.outPixels),
        [if r.ret then some (r.width, r.height, r.outPixels) else none])

/-- Receive path: the `mFrame` slot of a session. A deposit is a pass of the
worker's loop that received the frame, a withdrawal is the block of
`ProcessOpenGL` under `mFrameMutex`; it delivers what that block moves into
`mUploadW`, `mUploadH`, `mUploadPixels` when `mFrame.fresh` was set. -/
def recvMailStep (s : OMTReceive) : MailOp → OMTReceive × List Delivery
  | .deposit w h _ pixels => (s.workerLoop (some ⟨(w : Int), (h : Int), some pixels⟩), [])
  | .withdraw =>
    (s.pullFrame,
      [if s.mFrame.fresh then
         some (s.pullFrame.mUploadW, s.pullFrame.mUploadH, s.pullFrame.mUploadPixels)
       else none])

/-- A sequence of mailbox operations on the send path, with the deliveries seen. -/
def runSendMail : OMTVideoBuffer × List Nat → List MailOp →
    Option ((OMTVideoBuffer × List Nat) × List Delivery)
  | st, [] => some (st, [])
  | st, op :: rest =>
    match sendMailStep st op with
    | none => none
    | some (st1, seen) =>
      match runSendMail st1 rest with
      | none => none
      | some (st2, seenRest) => some (st2, seen ++ seenRest)

/-- A sequence of mailbox operations on the receive path, with the deliveries
seen. -/
def runRecvMail : OMTReceive → List MailOp → OMTReceive × List Delivery
  | s, [] => (s, [])
  | s, op :: rest =>
    ((runRecvMail (recvMailStep s op).1 rest).1,
      (recvMailStep s op).2 ++ (runRecvMail (recvMailStep s op).1 rest).2)

/-- A session connected to `"a"` whose worker has opened the connection. -/
def receivingSession : OMTReceive :=
  ((OMTReceive.InitGL {}).Connect "a" none).workerOpen true

/-- A sample of mailbox traffic: two deposits, two withdrawals, a deposit, a
withdrawal. -/
def sampleMail : List MailOp :=
  [.deposit 1 1 4 [1, 2, 3, 4], .deposit 1 1 4 [5, 6, 7, 8], .withdraw, .withdraw,
   .deposit 2 1 8 [9, 9, 9, 9, 8, 8, 8, 8], .withdraw]

/-- The relation between the two mailboxes kept by every operation: the receive
worker is in its loop with the running flag set, and the send path's front slot
is fresh exactly when `mFrame` is, then with the same width, height and bytes. -/
def MailSim (st : OMTVideoBuffer × List Nat) (s : OMTReceive) : Prop :=
  st.1.indexOk ∧ s.mRunReceive = true ∧
  (∃ wk, s.mReceiveThread = some wk ∧ wk.phase = .receiving) ∧
  (s.mFrame.fresh = false → st.1.front.fresh = false) ∧
  (s.mFrame.fresh = true →
    st.1.front.fresh = true ∧ st.1.front.pixels ≠ [] ∧ st.1.front.width = s.mFrame.w ∧
    st.1.front.height = s.mFrame.h ∧ st.1.front.pixels = s.mFrame.pixels)

/-! ## Runs of the send plugin -/

/-- The condition on an input texture under which the readback is sized right:
the logical size fits the padded size, and the padded size in bytes fits 32
bits. -/
def FFGLTextureStruct.padded (tex : FFGLTextureStruct) : Prop :=
  tex.Width ≤ tex.HardwareWidth ∧ tex.Height ≤ tex.HardwareHeight ∧
  tex.HardwareWidth * tex.HardwareHeight * 4 < 2 ^ 32

instance (tex : FFGLTextureStruct) : Decidable tex.padded := by
  unfold FFGLTextureStruct.padded; infer_instance

/-- The calls on a send plugin and the steps of its worker that move its state. -/
inductive TxAction where
  | initGL
  | deInitGL (midPass : Bool)
  | tick (input : Option FFGLTextureStruct) (mapped : Option (List Nat))
  | setFrameRate (idx : Int)
  | workerOpen (ok : Bool)
  | workerLoop
deriving DecidableEq, Repr

/-- Every texture handed to a tick is `padded`. -/
def TxAction.texOk : TxAction → Prop
  | .tick (some tex) _ => tex.padded
  | _ => True

instance (a : TxAction) : Decidable a.texOk := by
  cases a with
  | tick input mapped => cases input <;> unfold TxAction.texOk <;> infer_instance
  | _ => unfold TxAction.texOk; infer_instance

/-- One action on the send plugin; `none` when it runs into undefined behaviour. -/
def OMTSend.act (s : OMTSend) : TxAction → Option OMTSend
  | .initGL => some s.InitGL
  | .deInitGL midPass => s.DeInitGL midPass
  | .tick input mapped =>
    match s.ProcessOpenGL input mapped with
    | none => none
    | some (s1, _) => some s1
  | .setFrameRate idx => some (s.SetFloatParameterFrameRate idx)
  | .workerOpen ok => some (s.sendWorkerOpen ok)
  | .workerLoop =>
    match s.sendWorkerLoop with
    | none => none
    | some (s1, _) => some s1

/-- A finite sequence of actions on the send plugin, in order. -/
def OMTSend.runActions : OMTSend → List TxAction → Option OMTSend
  | s, [] => some s
  | s, a :: rest =>
    match s.act a with
    | none => none
    | some s1 => s1.runActions rest

/-- The state a send plugin is in between ticks, as far as the readback goes: a
pending transfer, when there is one, was kicked off for a `padded` texture with
non-zero dimensions whose padded size is the recorded buffer size; the video
buffer's index is valid; and the thread handle is joinable only while the
running flag is set. -/
def OMTSend.readbackOk (s : OMTSend) : Prop :=
  (s.mPBOReady = true →
    ∃ tex : FFGLTextureStruct, tex.padded ∧ tex.Height ≠ 0 ∧ tex.HardwareWidth ≠ 0 ∧
      tex.HardwareHeight ≠ 0 ∧
      s.mPending = ⟨tex.Width, tex.Height, tex.HardwareWidth, u32 (tex.Width * 4)⟩ ∧
      s.mPBOSize = hwSize tex) ∧
  s.mVideoBuffer.indexOk ∧
  (s.mRunSendThread = true ∨ s.mSendThread = none)

/-- A run of the send plugin: start, three ticks with the same texture (the second
and third harvest), the worker opening and sending, a resize, shutdown. -/
def sampleTxActions : List TxAction :=
  [.initGL, .tick (some sampleTex) none, .workerOpen true,
   .tick (some sampleTex) (some (List.replicate 32 5)), .workerLoop,
   .tick (some sampleTex) (some (List.replicate 32 6)), .setFrameRate 2,
   .tick (some widerTex) (some (List.replicate 32 7)),
   .tick (some widerTex) (some (List.replicate 64 8))]

/-- The state `sampleTxActions` ends in. -/
def sampleTxFinal : OMTSend :=
  { mShaderReady := true,
    mVideoBuffer :=
      { mBuffers := (⟨2, 2, 8, List.replicate 16 8, true⟩, ⟨2, 2, 8, List.replicate 16 6, true⟩),
        mBackIndex := 1 },
    mPBOWriteIdx := 1, mPBOReady := true, mPBOSize := 64, mPending := ⟨2, 2, 8, 8⟩,
    mCropBuf := List.replicate 16 8,
    mSendThread := some ⟨.sending, List.replicate 16 5⟩,
    mRunSendThread := true, mOMTSender := true, mFrameRateOption := 2,
    mFrameRateN := 30000, mFrameRateD := 1001 }

/-! # Theorems -/

/-! ## Basic facts about the primitives -/

theorem resize_length (v : List Nat) (n : Nat) : (resize v n).length = n := by
  simp [resize]; omega

theorem memcpy_whole (dst src : List Nat) (n : Nat) (hd : dst.length = n)
    (hs : src.length = n) : memcpy dst 0 src 0 n = some src := by
  have h1 : List.drop n dst = [] := by rw [← hd]; exact List.drop_length dst
  have h2 : List.take n src = src := by rw [← hs]; exact List.take_length src
  simp [memcpy, hd, hs, h1, h2]

theorem write_eq (vb : OMTVideoBuffer) (width height stride : Nat) (pixels : List Nat)
    (dataBytes : Nat) (hidx : vb.indexOk) (hlen : pixels.length = dataBytes) :
    vb.Write width height stride pixels dataBytes =
      some (if vb.mBackIndex = 0 then
              { mBuffers := (⟨width, height, stride, pixels, true⟩, vb.mBuffers.2),
                mBackIndex := 1 }
            else
              { mBuffers := (vb.mBuffers.1, ⟨width, height, stride, pixels, true⟩),
                mBackIndex := 0 }) := by
  have hm : ∀ old : List Nat, memcpy (resize old dataBytes) 0 pixels 0 dataBytes = some pixels :=
    fun old => memcpy_whole _ _ _ (resize_length _ _) hlen
  rcases hidx with h | h
  · simp [OMTVideoBuffer.Write, OMTVideoBuffer.slot, OMTVideoBuffer.setSlot, h, hm]
  · simp [OMTVideoBuffer.Write, OMTVideoBuffer.slot, OMTVideoBuffer.setSlot, h, hm]

theorem read_fresh (vb : OMTVideoBuffer) (w0 h0 s0 : Nat) (out0 : List Nat) :
    vb.Read w0 h0 s0 out0 =
      if vb.mBackIndex = 1 then
        (if vb.mBuffers.1.fresh = true ∧ vb.mBuffers.1.pixels ≠ [] then
          some ⟨{ vb with mBuffers := ({ vb.mBuffers.1 with pixels := out0, fresh := false },
                                        vb.mBuffers.2) },
                true, vb.mBuffers.1.width, vb.mBuffers.1.height, vb.mBuffers.1.stride,
                vb.mBuffers.1.pixels⟩
        else some ⟨vb, false, w0, h0, s0, out0⟩)
      else if vb.mBackIndex = 0 then
        (if vb.mBuffers.2.fresh = true ∧ vb.mBuffers.2.pixels ≠ [] then
          some ⟨{ vb with mBuffers := (vb.mBuffers.1,
                                        { vb.mBuffers.2 with pixels := out0, fresh := false }) },
                true, vb.mBuffers.2.width, vb.mBuffers.2.height, vb.mBuffers.2.stride,
                vb.mBuffers.2.pixels⟩
        else some ⟨vb, false, w0, h0, s0, out0⟩)
      else none := by
  by_cases h1 : vb.mBackIndex = 1
  · by_cases hf : vb.mBuffers.1.fresh = true <;> by_cases hp : vb.mBuffers.1.pixels = [] <;>
      simp [OMTVideoBuffer.Read, OMTVideoBuffer.slot, OMTVideoBuffer.setSlot, h1, hf, hp]
  · by_cases h0 : vb.mBackIndex = 0
    · by_cases hf : vb.mBuffers.2.fresh = true <;> by_cases hp : vb.mBuffers.2.pixels = [] <;>
        simp [OMTVideoBuffer.Read, OMTVideoBuffer.slot, OMTVideoBuffer.setSlot, h0, hf, hp]
    · have h2 : ¬ (1 - vb.mBackIndex = 0) := by omega
      have h3 : ¬ (1 - vb.mBackIndex = 1) := by omega
      simp [OMTVideoBuffer.Read, OMTVideoBuffer.slot, h0, h1, h2, h3]

/-! ## C1 -/

/-- C1, as stated, fails for a frame of zero bytes: on a new buffer,
`Write(1, 0, 4, pixels, 0)` followed at once by `Read` makes `Read` return
false and leaves the caller's arguments as they were. -/
theorem C1_empty_frame_not_delivered :
    ∃ vb1 r, ({} : OMTVideoBuffer).Write 1 0 4 [] 0 = some vb1 ∧
      vb1.Read 7 7 7 [9] = some r ∧ r.ret = false ∧
      r.width = 7 ∧ r.height = 7 ∧ r.stride = 7 ∧ r.outPixels = [9] := by
  refine ⟨⟨(⟨1, 0, 4, [], true⟩, {}), 1⟩,
    ⟨⟨(⟨1, 0, 4, [], true⟩, {}), 1⟩, false, 7, 7, 7, [9]⟩, ?_, ?_, ?_⟩ <;> decide

/-- C1 (amended): from every buffer state (back index 0 or 1) and for every frame
with `dataBytes > 0` bytes of pixel data, `Write` succeeds and a `Read` that
follows it immediately returns true and yields exactly the written width, height,
stride and bytes, whatever the caller passed in. -/
theorem C1_read_after_write (vb : OMTVideoBuffer) (width height stride : Nat)
    (pixels : List Nat) (dataBytes : Nat) (hidx : vb.indexOk)
    (hlen : pixels.length = dataBytes) (hpos : 0 < dataBytes)
    (w0 h0 s0 : Nat) (out0 : List Nat) :
    ∃ vb1 vb2, vb.Write width height stride pixels dataBytes = some vb1 ∧
      vb1.Read w0 h0 s0 out0 = some ⟨vb2, true, width, height, stride, pixels⟩ := by
  have hne : pixels ≠ [] := by
    intro h; rw [h] at hlen; simp at hlen; omega
  rw [write_eq vb width height stride pixels dataBytes hidx hlen]
  rcases hidx with h | h
  · refine ⟨_, ⟨(⟨width, height, stride, out0, false⟩, vb.mBuffers.2), 1⟩, rfl, ?_⟩
    rw [read_fresh]; simp [h, hne]
  · refine ⟨_, ⟨(vb.mBuffers.1, ⟨width, height, stride, out0, false⟩), 0⟩, rfl, ?_⟩
    rw [read_fresh]; simp [h, hne]

/-- Witness for C1: a 1x1 frame of four bytes written to a new buffer. -/
theorem C1_read_after_write_witness :
    ∃ vb1 vb2, ({} : OMTVideoBuffer).Write 1 1 4 [10, 20, 30, 40] 4 = some vb1 ∧
      vb1.Read 0 0 0 [] = some ⟨vb2, true, 1, 1, 4, [10, 20, 30, 40]⟩ :=
  C1_read_after_write {} 1 1 4 [10, 20, 30, 40] 4 (by decide) (by decide) (by decide) 0 0 0 []

/-! ## C3 -/

/-- C3: if a `Read` returns true, the `Read` that follows it at once (whatever the
caller passes) returns false, leaves the caller's width, height, stride and
outPixels as passed and leaves the buffer (both slots, back index) unchanged. -/
theorem C3_second_read_fails (vb : OMTVideoBuffer) (w0 h0 s0 : Nat) (out0 : List Nat)
    (r : ReadResult) (hread : vb.Read w0 h0 s0 out0 = some r) (hret : r.ret = true)
    (w1 h1 s1 : Nat) (out1 : List Nat) :
    r.buffer.Read w1 h1 s1 out1 = some ⟨r.buffer, false, w1, h1, s1, out1⟩ := by
  rw [read_fresh] at hread
  by_cases hb1 : vb.mBackIndex = 1
  · simp only [hb1, if_true] at hread
    split at hread
    · injection hread with hr; subst hr
      rw [read_fresh]; simp [hb1]
    · injection hread with hr; subst hr; simp at hret
  · by_cases hb0 : vb.mBackIndex = 0
    · simp only [hb0, if_true] at hread
      simp only [show ¬ ((0 : Int) = 1) by decide, if_false] at hread
      split at hread
      · injection hread with hr; subst hr
        rw [read_fresh]; simp [hb0]
      · injection hread with hr; subst hr; simp at hret
    · simp [hb1, hb0] at hread

/-- Witness for C3: the first `Read` after a `Write` succeeds, the second fails. -/
theorem C3_second_read_fails_witness :
    (⟨(⟨1, 1, 4, [], false⟩, {}), 1⟩ : OMTVideoBuffer).Read 0 0 0 [5]
      = some ⟨⟨(⟨1, 1, 4, [], false⟩, {}), 1⟩, false, 0, 0, 0, [5]⟩ :=
  C3_second_read_fails ⟨(⟨1, 1, 4, [1, 2, 3, 4], true⟩, {}), 1⟩ 9 9 9 []
    ⟨⟨(⟨1, 1, 4, [], false⟩, {}), 1⟩, true, 1, 1, 4, [1, 2, 3, 4]⟩ (by decide) rfl 0 0 0 [5]

/-! ## C2 -/

theorem exec_cons (vb : OMTVideoBuffer) (op : Op) (rest : List Op) :
    exec vb (op :: rest) =
      match step vb op with
      | none => none
      | some (vb1, o) =>
        match exec vb1 rest with
        | none => none
        | some (vb2, hist) => some (vb2, (op, o) :: hist) := rfl

theorem exec_snoc (vb : OMTVideoBuffer) (ops : List Op) (op : Op) :
    exec vb (ops ++ [op]) =
      match exec vb ops with
      | none => none
      | some (vb1, hist) =>
        match step vb1 op with
        | none => none
        | some (vb2, o) => some (vb2, hist ++ [(op, o)]) := by
  induction ops generalizing vb with
  | nil =>
    rw [List.nil_append, exec_cons]
    cases h : step vb op with
    | none => simp [exec, h]
    | some p => simp [exec, h]
  | cons a rest ih =>
    rw [List.cons_append, exec_cons, exec_cons]
    cases h : step vb a with
    | none => rfl
    | some p =>
      obtain ⟨vb1, o⟩ := p
      simp only [ih vb1]
      cases h1 : exec vb1 rest with
      | none => rfl
      | some q =>
        obtain ⟨vb2, hist⟩ := q
        simp only
        cases h2 : step vb2 op with
        | none => rfl
        | some q2 => simp

theorem snoc_split {α : Type} (hist before after : List α) (e x : α)
    (h : hist ++ [e] = before ++ x :: after) :
    (after = [] ∧ before = hist ∧ x = e) ∨
      ∃ after1, after = after1 ++ [e] ∧ hist = before ++ x :: after1 := by
  rcases List.eq_nil_or_concat after with rfl | ⟨a1, b, hab⟩
  case inr =>
    right
    rw [List.concat_eq_append] at hab
    subst hab
    have h1 : before ++ x :: (a1 ++ [b]) = (before ++ x :: a1) ++ [b] := by simp
    rw [h1] at h
    obtain ⟨h3, h4⟩ := List.append_inj' h (by simp)
    simp at h4
    exact ⟨a1, by rw [h4], h3⟩
  · left
    have h2 := List.append_inj' h (by simp)
    obtain ⟨h3, h4⟩ := h2
    simp at h4
    exact ⟨rfl, h3.symm, h4.symm⟩

theorem latestWrite_snoc_failed (hist : List (Op × Outcome)) (w h s : Nat) (px : List Nat)
    (e : Op × Outcome) (he : isFailedRead e) (hl : latestWrite hist w h s px) :
    latestWrite (hist ++ [e]) w h s px := by
  obtain ⟨before, n, after, rfl, hall⟩ := hl
  refine ⟨before, n, after ++ [e], by simp, ?_⟩
  intro x hx
  rcases List.mem_append.mp hx with hx | hx
  · exact hall x hx
  · simp at hx; subst hx; exact he

theorem step_write_inv (ops : List Op) (vb : OMTVideoBuffer) (hist : List (Op × Outcome))
    (hinv : RunInv ops vb hist) (w h s : Nat) (px : List Nat) (n : Nat)
    (hlen : px.length = n) :
    ∃ vb1, step vb (.write w h s px n) = some (vb1, .wrote) ∧
      RunInv (ops ++ [.write w h s px n]) vb1 (hist ++ [(.write w h s px n, .wrote)]) := by
  obtain ⟨hidx, hmap, _, hgot⟩ := hinv
  have hw := write_eq vb w h s px n hidx hlen
  have hrest : ∀ before rw rh rs rout w1 h1 s1 px1 after,
      hist ++ [(Op.write w h s px n, Outcome.wrote)] =
        before ++ (Op.read rw rh rs rout, Outcome.got w1 h1 s1 px1) :: after →
      latestWrite before w1 h1 s1 px1 := by
    intro before rw rh rs rout w1 h1 s1 px1 after heq
    rcases snoc_split _ _ _ _ _ heq with ⟨_, _, hx⟩ | ⟨after1, _, hh⟩
    · simp at hx
    · exact hgot _ _ _ _ _ _ _ _ _ _ hh
  rcases hidx with h0 | h1
  · simp only [h0, if_true] at hw
    refine ⟨⟨(⟨w, h, s, px, true⟩, vb.mBuffers.2), 1⟩, by simp only [step, hw],
      Or.inr rfl, by simp [hmap], ?_, hrest⟩
    intro _ _
    exact ⟨hist, n, [], rfl, by simp⟩
  · simp only [h1, show ¬ ((1 : Int) = 0) by decide, if_false] at hw
    refine ⟨⟨(vb.mBuffers.1, ⟨w, h, s, px, true⟩), 0⟩, by simp only [step, hw],
      Or.inl rfl, by simp [hmap], ?_, hrest⟩
    intro _ _
    exact ⟨hist, n, [], rfl, by simp⟩

theorem step_read_inv (ops : List Op) (vb : OMTVideoBuffer) (hist : List (Op × Outcome))
    (hinv : RunInv ops vb hist) (w h s : Nat) (out : List Nat) :
    ∃ vb1 o, step vb (.read w h s out) = some (vb1, o) ∧
      RunInv (ops ++ [.read w h s out]) vb1 (hist ++ [(.read w h s out, o)]) := by
  obtain ⟨hidx, hmap, hfront, hgot⟩ := hinv
  by_cases hf : vb.front.fresh = true ∧ vb.front.pixels ≠ []
  · -- the read succeeds and delivers the front slot
    have hlw := hfront hf.1 hf.2
    have hstep : ∃ vb1, step vb (.read w h s out) =
        some (vb1, .got vb.front.width vb.front.height vb.front.stride vb.front.pixels) ∧
        vb1.indexOk ∧ vb1.front.fresh = false := by
      rcases hidx with h0 | h1
      · have hf2 : vb.mBuffers.2.fresh = true ∧ vb.mBuffers.2.pixels ≠ [] := by
          simpa [OMTVideoBuffer.front, h0] using hf
        refine ⟨⟨(vb.mBuffers.1, { vb.mBuffers.2 with pixels := out, fresh := false }), 0⟩,
          by simp only [step, read_fresh]; simp [h0, hf2, OMTVideoBuffer.front], Or.inl rfl, ?_⟩
        simp [OMTVideoBuffer.front]
      · have hf1 : vb.mBuffers.1.fresh = true ∧ vb.mBuffers.1.pixels ≠ [] := by
          simpa [OMTVideoBuffer.front, h1] using hf
        refine ⟨⟨({ vb.mBuffers.1 with pixels := out, fresh := false }, vb.mBuffers.2), 1⟩,
          by simp only [step, read_fresh]; simp [h1, hf1, OMTVideoBuffer.front], Or.inr rfl, ?_⟩
        simp [OMTVideoBuffer.front]
    obtain ⟨vb1, hs1, hi1, hfr1⟩ := hstep
    refine ⟨vb1, _, hs1, hi1, by simp [hmap], ?_, ?_⟩
    · intro hfresh; rw [hfr1] at hfresh; exact absurd hfresh (by decide)
    · intro before rw rh rs rout w1 h1 s1 px1 after heq
      rcases snoc_split _ _ _ _ _ heq with ⟨_, hb, hx⟩ | ⟨after1, _, hh⟩
      · simp only [Prod.mk.injEq, Outcome.got.injEq] at hx
        obtain ⟨_, hw1, hh1, hs1, hp1⟩ := hx
        subst hb; rw [hw1, hh1, hs1, hp1]; exact hlw
      · exact hgot _ _ _ _ _ _ _ _ _ _ hh
  · -- the read fails and changes nothing
    have hstep : step vb (.read w h s out) = some (vb, .nothing) := by
      rcases hidx with h0 | h1
      · have hf2 : ¬ (vb.mBuffers.2.fresh = true ∧ vb.mBuffers.2.pixels ≠ []) := by
          simpa [OMTVideoBuffer.front, h0] using hf
        simp only [step, read_fresh]; simp [h0, hf2]
      · have hf1 : ¬ (vb.mBuffers.1.fresh = true ∧ vb.mBuffers.1.pixels ≠ []) := by
          simpa [OMTVideoBuffer.front, h1] using hf
        simp only [step, read_fresh]; simp [h1, hf1]
    refine ⟨vb, _, hstep, hidx, by simp [hmap], ?_, ?_⟩
    · intro h1 h2
      exact latestWrite_snoc_failed _ _ _ _ _ _ ⟨w, h, s, out, rfl⟩ (hfront h1 h2)
    · intro before rw rh rs rout w1 h1 s1 px1 after heq
      rcases snoc_split _ _ _ _ _ heq with ⟨_, _, hx⟩ | ⟨after1, _, hh⟩
      · simp at hx
      · exact hgot _ _ _ _ _ _ _ _ _ _ hh

theorem run_inv (ops : List Op) (hwf : ∀ op ∈ ops, op.wf) :
    ∃ vb hist, exec {} ops = some (vb, hist) ∧ RunInv ops vb hist := by
  induction ops using List.reverseRecOn with
  | nil =>
    refine ⟨{}, [], rfl, Or.inl rfl, rfl, ?_, ?_⟩
    · intro hfresh; simp [OMTVideoBuffer.front] at hfresh
    · intro before rw rh rs rout w1 h1 s1 px1 after heq
      simp at heq
  | append_singleton ops op ih =>
    obtain ⟨vb, hist, hex, hinv⟩ := ih (fun o ho => hwf o (List.mem_append_left _ ho))
    have hop : op.wf := hwf op (by simp)
    cases op with
    | write w h s px n =>
      obtain ⟨vb1, hs1, hinv1⟩ := step_write_inv ops vb hist hinv w h s px n hop
      exact ⟨vb1, _, by rw [exec_snoc, hex]; simp only [hs1], hinv1⟩
    | read w h s out =>
      obtain ⟨vb1, o, hs1, hinv1⟩ := step_read_inv ops vb hist hinv w h s out
      exact ⟨vb1, _, by rw [exec_snoc, hex]; simp only [hs1], hinv1⟩

theorem split_between {α : Type} (a b pre mid : List α) (x y : α)
    (h : a ++ x :: b = pre ++ y :: mid) (hxy : x ≠ y) (hx : x ∉ mid) :
    ∃ b1, b = b1 ++ y :: mid := by
  rcases List.append_eq_append_iff.mp h with ⟨a1, _, h2⟩ | ⟨c1, _, h2⟩
  · cases a1 with
    | nil =>
      simp only [List.nil_append, List.cons.injEq] at h2
      exact absurd h2.1 hxy
    | cons z a2 =>
      simp only [List.cons_append, List.cons.injEq] at h2
      exact ⟨a2, h2.2⟩
  · cases c1 with
    | nil =>
      simp only [List.nil_append, List.cons.injEq] at h2
      exact absurd h2.1.symm hxy
    | cons z c2 =>
      simp only [List.cons_append, List.cons.injEq] at h2
      exact absurd (by rw [h2.2]; simp) hx

/-- C2: every finite sequence of well-formed `Write` and `Read` calls on a new
buffer runs to completion, and in its history (i) every `Read` that returned true
delivered the width, height, stride and bytes of one earlier `Write`, the most
recent one before it (only failed reads lie between the two), and (ii) of two
successful reads the later one delivers a `Write` made after the earlier read, so
frames come out in deposit order and none twice. -/
theorem C2_reads_deliver_latest_write (ops : List Op) (hwf : ∀ op ∈ ops, op.wf) :
    ∃ vb hist, exec {} ops = some (vb, hist) ∧ hist.map Prod.fst = ops ∧
      (∀ before rw rh rs rout w h s px after,
        hist = before ++ (Op.read rw rh rs rout, Outcome.got w h s px) :: after →
        ∃ earlier dataBytes between,
          before = earlier ++ (Op.write w h s px dataBytes, Outcome.wrote) :: between ∧
          ∀ e ∈ between, isFailedRead e) ∧
      (∀ a rw1 rh1 rs1 ro1 w1 h1 s1 px1 b rw2 rh2 rs2 ro2 w2 h2 s2 px2 c,
        hist = a ++ (Op.read rw1 rh1 rs1 ro1, Outcome.got w1 h1 s1 px1) :: b ++
          (Op.read rw2 rh2 rs2 ro2, Outcome.got w2 h2 s2 px2) :: c →
        ∃ b1 dataBytes b2,
          b = b1 ++ (Op.write w2 h2 s2 px2 dataBytes, Outcome.wrote) :: b2 ∧
          ∀ e ∈ b2, isFailedRead e) := by
  obtain ⟨vb, hist, hex, _, hmap, _, hgot⟩ := run_inv ops hwf
  refine ⟨vb, hist, hex, hmap, ?_, ?_⟩
  · intro before rw rh rs rout w h s px after heq
    exact hgot _ _ _ _ _ _ _ _ _ _ heq
  · intro a rw1 rh1 rs1 ro1 w1 h1 s1 px1 b rw2 rh2 rs2 ro2 w2 h2 s2 px2 c heq
    have heq2 : hist = (a ++ (Op.read rw1 rh1 rs1 ro1, Outcome.got w1 h1 s1 px1) :: b) ++
        (Op.read rw2 rh2 rs2 ro2, Outcome.got w2 h2 s2 px2) :: c := by
      rw [heq]
    obtain ⟨pre, n, mid, hpre, hmid⟩ := hgot _ _ _ _ _ _ _ _ _ _ heq2
    obtain ⟨b1, hb1⟩ := split_between _ _ _ _ _ _ hpre (by simp) (by
      intro hin
      obtain ⟨_, _, _, _, hfr⟩ := hmid _ hin
      simp at hfr)
    exact ⟨b1, n, mid, hb1, hmid⟩

/-- Witness for C2: the sample run. -/
theorem C2_reads_deliver_latest_write_witness :
    ∃ vb hist, exec {} sampleOps = some (vb, hist) ∧ hist.map Prod.fst = sampleOps ∧
      (∀ before rw rh rs rout w h s px after,
        hist = before ++ (Op.read rw rh rs rout, Outcome.got w h s px) :: after →
        ∃ earlier dataBytes between,
          before = earlier ++ (Op.write w h s px dataBytes, Outcome.wrote) :: between ∧
          ∀ e ∈ between, isFailedRead e) ∧
      (∀ a rw1 rh1 rs1 ro1 w1 h1 s1 px1 b rw2 rh2 rs2 ro2 w2 h2 s2 px2 c,
        hist = a ++ (Op.read rw1 rh1 rs1 ro1, Outcome.got w1 h1 s1 px1) :: b ++
          (Op.read rw2 rh2 rs2 ro2, Outcome.got w2 h2 s2 px2) :: c →
        ∃ b1 dataBytes b2,
          b = b1 ++ (Op.write w2 h2 s2 px2 dataBytes, Outcome.wrote) :: b2 ∧
          ∀ e ∈ b2, isFailedRead e) :=
  C2_reads_deliver_latest_write sampleOps (by decide)

/-! ## C4 -/

theorem rowOf_getElem_opt (buf : List Nat) (rb r n i : Nat) :
    (rowOf buf rb r n)[i]? = if i < n then buf[r * rb + i]? else none := by
  simp [rowOf, List.getElem?_take, List.getElem?_drop]

theorem memcpy_spec (dst src : List Nat) (a b n : Nat) (hd : a + n ≤ dst.length)
    (hs : b + n ≤ src.length) :
    ∃ out, memcpy dst a src b n = some out ∧ out.length = dst.length ∧
      ∀ i, out[i]? = if a ≤ i ∧ i < a + n then src[b + (i - a)]? else dst[i]? := by
  refine ⟨dst.take a ++ (src.drop b).take n ++ dst.drop (a + n), by simp [memcpy, hd, hs], ?_, ?_⟩
  · simp; omega
  · intro i
    have ha : a ≤ dst.length := by omega
    have hl1 : (List.take a dst).length = a := by simp; omega
    have hl2 : (List.take n (List.drop b src)).length = n := by simp; omega
    by_cases h1 : i < a
    · rw [List.append_assoc, List.getElem?_append_left (by omega)]
      have hc : ¬ (a ≤ i ∧ i < a + n) := by omega
      simp [List.getElem?_take, h1, hc]
    · by_cases h2 : i < a + n
      · rw [List.append_assoc, List.getElem?_append_right (by omega), hl1,
          List.getElem?_append_left (by omega)]
        have : i - a < n := by omega
        have hc : a ≤ i ∧ i < a + n := by omega
        simp [List.getElem?_take, List.getElem?_drop, this, hc]
      · rw [List.getElem?_append_right (by simp; omega)]
        simp [List.getElem?_drop]
        have : ¬ (a ≤ i ∧ i < a + n) := by omega
        simp [this]
        congr 1; omega

theorem harvestRows_inv (pf : PendingFrame) (src : List Nat) (hh : pf.h < 2 ^ 32)
    (hdst : ∀ r, r < pf.h → dstOffset pf r = r * pf.stride)
    (hsrc : ∀ r, r < pf.h → srcOffset pf r + pf.stride ≤ src.length) :
    ∀ k row crop, row + k = pf.h → crop.length = pf.stride * pf.h →
      ∃ out, harvestRows pf src k row crop = some out ∧ out.length = pf.stride * pf.h ∧
        (∀ r, row ≤ r → r < pf.h →
          rowOf out pf.stride r pf.stride = (src.drop (srcOffset pf r)).take pf.stride) ∧
        (∀ r, r < row → rowOf out pf.stride r pf.stride = rowOf crop pf.stride r pf.stride) := by
  intro k
  induction k with
  | zero =>
    intro row crop hrow hlen
    refine ⟨crop, rfl, hlen, ?_, fun _ _ => rfl⟩
    intro r h1 h2; omega
  | succ k ih =>
    intro row crop hrow hlen
    have hlt : row < pf.h := by omega
    have hmul : (row + 1) * pf.stride ≤ pf.h * pf.stride := Nat.mul_le_mul_right _ (by omega)
    have hd : dstOffset pf row + pf.stride ≤ crop.length := by
      rw [hdst row hlt, hlen, Nat.mul_comm pf.stride pf.h]
      rw [Nat.add_mul] at hmul; omega
    obtain ⟨crop1, hm, hl1, hget⟩ := memcpy_spec crop src _ _ _ hd (hsrc row hlt)
    have hnext : u32 (row + 1) = row + 1 := by
      unfold u32; exact Nat.mod_eq_of_lt (by omega)
    obtain ⟨out, hout, hlo, hnew, hold⟩ := ih (row + 1) crop1 (by omega) (by rw [hl1, hlen])
    refine ⟨out, by simp only [harvestRows, hm, hnext, hout], hlo, ?_, ?_⟩
    · intro r h1 h2
      by_cases hr : r = row
      · subst hr
        rw [hold r (by omega)]
        apply List.ext_getElem?
        intro i
        rw [rowOf_getElem_opt, hget, hdst r hlt]
        by_cases hi : i < pf.stride
        · have hc : r * pf.stride ≤ r * pf.stride + i ∧
              r * pf.stride + i < r * pf.stride + pf.stride := by omega
          simp [hi, hc, List.getElem?_take, List.getElem?_drop]
        · simp [hi, List.getElem?_take]
      · exact hnew r (by omega) h2
    · intro r hr
      rw [hold r (by omega)]
      apply List.ext_getElem?
      intro i
      rw [rowOf_getElem_opt, rowOf_getElem_opt, hget, hdst row hlt]
      by_cases hi : i < pf.stride
      · have h3 : (r + 1) * pf.stride ≤ row * pf.stride := Nat.mul_le_mul_right _ (by omega)
        rw [Nat.add_mul] at h3
        have hc : ¬ (row * pf.stride ≤ r * pf.stride + i ∧
            r * pf.stride + i < row * pf.stride + pf.stride) := by omega
        simp [hi, hc]
      · simp [hi]

theorem harvest_spec (pf : PendingFrame) (src mCropBuf : List Nat) (vb : OMTVideoBuffer)
    (hh : pf.h < 2 ^ 32) (hsz : pf.stride * pf.h < 2 ^ 64) (hidx : vb.indexOk)
    (hdst : ∀ r, r < pf.h → dstOffset pf r = r * pf.stride)
    (hsrc : ∀ r, r < pf.h → srcOffset pf r + pf.stride ≤ src.length) :
    ∃ crop vb1, harvest pf src mCropBuf vb = some (crop, vb1) ∧
      crop.length = pf.stride * pf.h ∧
      (∀ r, r < pf.h →
        rowOf crop pf.stride r pf.stride = (src.drop (srcOffset pf r)).take pf.stride) ∧
      vb.Write pf.w pf.h pf.stride crop (pf.stride * pf.h) = some vb1 := by
  have hus : usize (pf.stride * pf.h) = pf.stride * pf.h := by
    unfold usize; exact Nat.mod_eq_of_lt hsz
  obtain ⟨crop, hrows, hlen, hnew, _⟩ :=
    harvestRows_inv pf src hh hdst hsrc pf.h 0 (resize mCropBuf (usize (pf.stride * pf.h)))
      (by omega) (by rw [resize_length, hus])
  obtain ⟨vb1, hw⟩ : ∃ vb1, vb.Write pf.w pf.h pf.stride crop crop.length = some vb1 :=
    ⟨_, write_eq vb pf.w pf.h pf.stride crop crop.length hidx rfl⟩
  refine ⟨crop, vb1, by simp only [harvest, hrows, hw], hlen,
    fun r hr => hnew r (Nat.zero_le r) hr, by rw [← hlen]; exact hw⟩

theorem srcOffset_eq (pf : PendingFrame) (r : Nat) (hr : r < pf.h)
    (hbound : pf.h * pf.hw * 4 < 2 ^ 32) (hh : pf.h < 2 ^ 32) :
    srcOffset pf r = (pf.h - 1 - r) * (pf.hw * 4) := by
  have h1 : u32sub (u32sub pf.h 1) r = pf.h - 1 - r := by
    unfold u32sub; omega
  have h2 : (pf.h - 1 - r) * pf.hw ≤ pf.h * pf.hw := Nat.mul_le_mul_right _ (by omega)
  have h3 : u32 ((pf.h - 1 - r) * pf.hw) = (pf.h - 1 - r) * pf.hw := by
    unfold u32; exact Nat.mod_eq_of_lt (by omega)
  have h4 : u32 ((pf.h - 1 - r) * pf.hw * 4) = (pf.h - 1 - r) * pf.hw * 4 := by
    unfold u32; exact Nat.mod_eq_of_lt (by omega)
  unfold srcOffset
  rw [h1, h3, h4, Nat.mul_assoc]

theorem srcOffset_exact (pf : PendingFrame) (r : Nat) (hr : r < pf.h)
    (hbound : (pf.h - 1) * pf.hw * 4 < 2 ^ 32) (hh : pf.h < 2 ^ 32) :
    srcOffset pf r = (pf.h - 1 - r) * (pf.hw * 4) := by
  have h1 : u32sub (u32sub pf.h 1) r = pf.h - 1 - r := by
    unfold u32sub; omega
  have h2 : (pf.h - 1 - r) * pf.hw ≤ (pf.h - 1) * pf.hw := Nat.mul_le_mul_right _ (by omega)
  have h3 : u32 ((pf.h - 1 - r) * pf.hw) = (pf.h - 1 - r) * pf.hw := by
    unfold u32; exact Nat.mod_eq_of_lt (by omega)
  have h4 : u32 ((pf.h - 1 - r) * pf.hw * 4) = (pf.h - 1 - r) * pf.hw * 4 := by
    unfold u32; exact Nat.mod_eq_of_lt (by omega)
  unfold srcOffset
  rw [h1, h3, h4, Nat.mul_assoc]

theorem harvest_wrap_example (zs : List Nat) (hz : zs.length = 2 ^ 32) :
    ∃ crop vb, harvest ⟨1, 2 ^ 29 + 1, 2, 4⟩ (zs ++ [1, 1, 1, 1, 1, 1, 1, 1]) [] {}
        = some (crop, vb) ∧
      rowOf crop (1 * 4) 0 (1 * 4) = zs.take 4 ∧
      rowOf (zs ++ [1, 1, 1, 1, 1, 1, 1, 1]) (2 * 4) (2 ^ 29 + 1 - 1 - 0) (1 * 4)
        = [1, 1, 1, 1] := by
  obtain ⟨crop, vb1, hharv, _, hrows, _⟩ :=
    harvest_spec ⟨1, 2 ^ 29 + 1, 2, 4⟩ (zs ++ [1, 1, 1, 1, 1, 1, 1, 1]) [] {}
      (by norm_num) (by norm_num) (Or.inl rfl)
      (by intro r hr; simp only [dstOffset, u32] at *; omega)
      (by
        intro r _
        have : srcOffset ⟨1, 2 ^ 29 + 1, 2, 4⟩ r < 2 ^ 32 := by
          unfold srcOffset u32; exact Nat.mod_lt _ (by norm_num)
        simp only [List.length_append, hz, List.length_cons, List.length_nil]
        show _ + 4 ≤ _
        omega)
  refine ⟨crop, vb1, hharv, ?_, ?_⟩
  · have h0 := hrows 0 (by norm_num)
    have hoff : srcOffset ⟨1, 2 ^ 29 + 1, 2, 4⟩ 0 = 0 := by
      norm_num [srcOffset, u32, u32sub]
    rw [hoff] at h0
    dsimp only at h0
    simp only [Nat.one_mul]
    rw [h0, List.drop_zero, List.take_append_of_le_length (by omega)]
  · have hd : (2 ^ 29 + 1 - 1 - 0) * (2 * 4) = 2 ^ 32 := by norm_num
    unfold rowOf
    rw [hd, List.drop_left' hz]
    rfl

theorem tick_harvests (s : OMTSend) (tex : FFGLTextureStruct) (src crop : List Nat)
    (vb : OMTVideoBuffer) (hready : s.mShaderReady = true) (hrun : s.mRunSendThread = true)
    (htex : ¬ (tex.Handle = 0 ∨ tex.Width = 0 ∨ tex.Height = 0 ∨
      tex.HardwareWidth = 0 ∨ tex.HardwareHeight = 0))
    (hsz : hwSize tex = s.mPBOSize) (hp : s.mPBOReady = true)
    (hh : harvest s.mPending src s.mCropBuf s.mVideoBuffer = some (crop, vb)) :
    ∃ s1, s.ProcessOpenGL (some tex) (some src) = some (s1, .FF_SUCCESS) ∧
      s1.mCropBuf = crop ∧ s1.mVideoBuffer = vb := by
  unfold OMTSend.ProcessOpenGL
  simp only [hready, hrun, Bool.not_true, Bool.false_eq_true, if_false, htex, hsz, ne_eq,
    not_true_eq_false, hp, if_true, hh]
  refine ⟨_, rfl, ?_⟩
  split_ifs <;> simp

/-- C4, the code at the failing input: the `memcpy` offsets `row * pf.stride` and
`(pf.h - 1 - row) * pf.hw * 4` are computed in `uint32_t`, without the `(size_t)`
cast that the `resize` line above them and the transfer size `hwSize` have. Two
ticks with a texture of width 1, height `2^29 + 1` and padded width 2: the first
leaves the descriptor `(w, h, hw, stride) = (1, 2^29 + 1, 2, 4)` pending; on the
second the mapped buffer holds `h` rows of `hw * 4 = 8` bytes (2^32 zero bytes,
then the last row, row `h - 1`, all ones), and harvested row 0 is the start of
source row 0, not of source row `h - 1`, because `(h - 1 - 0) * hw * 4 = 2^32`
wraps to offset 0. -/
theorem C4_offset_wraps :
    (OMTSend.InitGL {}).ProcessOpenGL (some tallTex) none = some (tallPending, .FF_SUCCESS) ∧
    tallPending.mPending = ⟨1, 2 ^ 29 + 1, 2, 4⟩ ∧
    (1 : Nat) ≤ 2 ∧ (4 : Nat) = 4 * 1 ∧
    (List.replicate (2 ^ 32) 0 ++ [1, 1, 1, 1, 1, 1, 1, 1]).length = (2 ^ 29 + 1) * (2 * 4) ∧
    srcOffset ⟨1, 2 ^ 29 + 1, 2, 4⟩ 0 = 0 ∧
    (2 ^ 29 + 1 - 1 - 0) * 2 * 4 = 2 ^ 32 ∧
    (∃ crop vb, harvest ⟨1, 2 ^ 29 + 1, 2, 4⟩
        (List.replicate (2 ^ 32) 0 ++ [1, 1, 1, 1, 1, 1, 1, 1]) [] {} = some (crop, vb) ∧
      (∃ s1, tallPending.ProcessOpenGL (some tallTex)
          (some (List.replicate (2 ^ 32) 0 ++ [1, 1, 1, 1, 1, 1, 1, 1]))
          = some (s1, .FF_SUCCESS) ∧ s1.mCropBuf = crop ∧ s1.mVideoBuffer = vb) ∧
      rowOf crop (1 * 4) 0 (1 * 4) = [0, 0, 0, 0]) ∧
    rowOf (List.replicate (2 ^ 32) 0 ++ [1, 1, 1, 1, 1, 1, 1, 1]) (2 * 4)
      (2 ^ 29 + 1 - 1 - 0) (1 * 4) = [1, 1, 1, 1] := by
  have hz : (List.replicate (2 ^ 32) 0).length = 2 ^ 32 := List.length_replicate _ _
  have ht : (List.replicate (2 ^ 32) 0).take 4 = [0, 0, 0, 0] := by
    rw [List.take_replicate, Nat.min_eq_left (by norm_num)]
    rfl
  obtain ⟨crop, vb, h1, h2, h3⟩ := harvest_wrap_example _ hz
  have htick := tick_harvests tallPending tallTex
    (List.replicate (2 ^ 32) 0 ++ [1, 1, 1, 1, 1, 1, 1, 1]) crop vb rfl rfl (by decide)
    (by decide) rfl h1
  refine ⟨by decide, rfl, by decide, by decide, ?_, by norm_num [srcOffset, u32, u32sub],
    by norm_num, ⟨crop, vb, h1, htick, by rw [h2, ht]⟩, h3⟩
  rw [List.length_append, hz]
  norm_num

/-- While the last row offset `(h - 1) * hw * 4` stays below `2^32` no `uint32_t`
offset of the harvest wraps, and the harvest does what C4 says: for every pending
descriptor `(w, h, hw, stride = 4 * w)` with `w <= hw` and every mapped source
holding (at least) `h` rows of `hw * 4` bytes, it succeeds and produces a crop
buffer of exactly `w * 4 * h` bytes whose row `r` (`r < h`) is the first `w * 4`
bytes of source row `h - 1 - r`; that buffer, with `(w, h, stride)`, is what is
written into the send mailbox. -/
theorem harvest_normalizes_in_range (pf : PendingFrame) (src mCropBuf : List Nat)
    (vb : OMTVideoBuffer) (hstride : pf.stride = 4 * pf.w) (hle : pf.w ≤ pf.hw)
    (hsrc : pf.h * (pf.hw * 4) ≤ src.length) (hh : pf.h < 2 ^ 32)
    (hs : pf.stride < 2 ^ 32)
    (hbound : (pf.h - 1) * pf.hw * 4 < 2 ^ 32) (hidx : vb.indexOk) :
    ∃ crop vb1, harvest pf src mCropBuf vb = some (crop, vb1) ∧
      crop.length = pf.w * 4 * pf.h ∧
      (∀ r, r < pf.h →
        rowOf crop (pf.w * 4) r (pf.w * 4) = rowOf src (pf.hw * 4) (pf.h - 1 - r) (pf.w * 4)) ∧
      vb.Write pf.w pf.h pf.stride crop (pf.w * 4 * pf.h) = some vb1 := by
  have hS : pf.stride = pf.w * 4 := by omega
  have hSA : pf.stride ≤ pf.hw * 4 := by omega
  have hA : (pf.h - 1) * (pf.hw * 4) < 2 ^ 32 := by rw [← Nat.mul_assoc]; exact hbound
  have hrS : ∀ r, r < pf.h → r * pf.stride ≤ (pf.h - 1) * (pf.hw * 4) :=
    fun r hr => Nat.mul_le_mul (by omega) hSA
  have hsz : pf.stride * pf.h < 2 ^ 64 := by
    have h1 : pf.stride * pf.h ≤ 2 ^ 32 * 2 ^ 32 :=
      Nat.mul_le_mul (Nat.le_of_lt hs) (Nat.le_of_lt hh)
    have h2 : pf.stride * pf.h ≠ 2 ^ 32 * 2 ^ 32 := by
      intro h
      have h3 : pf.stride * pf.h ≤ (2 ^ 32 - 1) * (2 ^ 32 - 1) :=
        Nat.mul_le_mul (by omega) (by omega)
      norm_num at h h3
      omega
    norm_num at h1 h2 ⊢
    omega
  obtain ⟨crop, vb1, hharv, hlen, hrows, hwrite⟩ :=
    harvest_spec pf src mCropBuf vb hh hsz hidx
      (by
        intro r hr
        have := hrS r hr
        unfold dstOffset u32
        exact Nat.mod_eq_of_lt (by omega))
      (by
        intro r hr
        rw [srcOffset_exact pf r hr hbound hh]
        have h1 : (pf.h - 1 - r + 1) * (pf.hw * 4) ≤ pf.h * (pf.hw * 4) :=
          Nat.mul_le_mul_right _ (by omega)
        rw [Nat.add_mul] at h1
        omega)
  refine ⟨crop, vb1, hharv, by rw [hlen, hS], ?_, by rw [← hS]; exact hwrite⟩
  intro r hr
  rw [← hS, hrows r hr, srcOffset_exact pf r hr hbound hh]
  rfl

/-- The example `hw = 4, w = 2, h = 2` with source rows
`[A0 A1 A2 A3][B0 B1 B2 B3]` (pixel `Ai` = four bytes `i + 1`, pixel `Bi` = four
bytes `i + 5`); the harvested rows are `[B0 B1][A0 A1]`. -/
theorem harvest_normalizes_example :
    (harvest ⟨2, 2, 4, 8⟩
        [1, 1, 1, 1, 2, 2, 2, 2, 3, 3, 3, 3, 4, 4, 4, 4,
         5, 5, 5, 5, 6, 6, 6, 6, 7, 7, 7, 7, 8, 8, 8, 8] [] {}).map Prod.fst
      = some [5, 5, 5, 5, 6, 6, 6, 6, 1, 1, 1, 1, 2, 2, 2, 2] ∧
    ∃ crop vb1, harvest ⟨2, 2, 4, 8⟩
        [1, 1, 1, 1, 2, 2, 2, 2, 3, 3, 3, 3, 4, 4, 4, 4,
         5, 5, 5, 5, 6, 6, 6, 6, 7, 7, 7, 7, 8, 8, 8, 8] [] {} = some (crop, vb1) ∧
      crop.length = 2 * 4 * 2 ∧
      (∀ r, r < 2 →
        rowOf crop (2 * 4) r (2 * 4) =
          rowOf [1, 1, 1, 1, 2, 2, 2, 2, 3, 3, 3, 3, 4, 4, 4, 4,
                 5, 5, 5, 5, 6, 6, 6, 6, 7, 7, 7, 7, 8, 8, 8, 8] (4 * 4) (2 - 1 - r) (2 * 4)) ∧
      ({} : OMTVideoBuffer).Write 2 2 8 crop (2 * 4 * 2) = some vb1 :=
  ⟨by decide,
   harvest_normalizes_in_range ⟨2, 2, 4, 8⟩
     [1, 1, 1, 1, 2, 2, 2, 2, 3, 3, 3, 3, 4, 4, 4, 4,
      5, 5, 5, 5, 6, 6, 6, 6, 7, 7, 7, 7, 8, 8, 8, 8] [] {} (by decide) (by decide)
     (by decide) (by decide) (by decide) (by decide) (by decide)⟩

/-! ## C5 -/

/-- C5, as stated, fails: the comparison `found != mAddresses` is on vectors, so
a list with the same addresses in another order counts as a change. With
`["a", "b"]` stored (version 1), enumerating `["b", "a"]` raises the version `Poll`
reports to 2. -/
theorem C5_reordered_list_bumps_version :
    (∀ x, x ∈ ["b", "a"] ↔ x ∈ (DiscoveryManager.ThreadFuncStep {} ["a", "b"]).mAddresses) ∧
    ((DiscoveryManager.ThreadFuncStep {} ["a", "b"]).Poll 0).instanceVersion = 1 ∧
    (((DiscoveryManager.ThreadFuncStep {} ["a", "b"]).ThreadFuncStep ["b", "a"]).Poll
      0).instanceVersion = 2 := by
  refine ⟨?_, by decide, by decide⟩
  intro x
  have h : (DiscoveryManager.ThreadFuncStep {} ["a", "b"]).mAddresses = ["a", "b"] := by decide
  rw [h]
  simp [or_comm]

/-- C5 (amended): in one step of the discovery loop, if the newly enumerated list
equals the stored list (same addresses in the same order), nothing changes: the
manager is as before and `Poll` reports the same version before and after. -/
theorem C5_same_list_keeps_version (dm : DiscoveryManager) (found : List String)
    (hsame : found = dm.mAddresses) (v : Nat) :
    dm.ThreadFuncStep found = dm ∧
    ((dm.ThreadFuncStep found).Poll v).instanceVersion = (dm.Poll v).instanceVersion := by
  have h : dm.ThreadFuncStep found = dm := by
    simp [DiscoveryManager.ThreadFuncStep, hsame]
  exact ⟨h, by rw [h]⟩

/-- Witness for C5: `["a", "b"]` enumerated twice. -/
theorem C5_same_list_keeps_version_witness :
    (DiscoveryManager.ThreadFuncStep {} ["a", "b"]).ThreadFuncStep ["a", "b"]
      = DiscoveryManager.ThreadFuncStep {} ["a", "b"] ∧
    (((DiscoveryManager.ThreadFuncStep {} ["a", "b"]).ThreadFuncStep ["a", "b"]).Poll
      7).instanceVersion = ((DiscoveryManager.ThreadFuncStep {} ["a", "b"]).Poll 7).instanceVersion :=
  C5_same_list_keeps_version (DiscoveryManager.ThreadFuncStep {} ["a", "b"]) ["a", "b"]
    (by decide) 7

/-! ## C6 -/

theorem step_changed (dm : DiscoveryManager) (found : List String)
    (hne : found ≠ dm.mAddresses) :
    (dm.ThreadFuncStep found).mVersion = u32 (dm.mVersion + 1) ∧
    (dm.ThreadFuncStep found).mAddresses = found ∧
    (dm.ThreadFuncStep found).mCurrent.addresses = found := by
  simp [DiscoveryManager.ThreadFuncStep, hne]

theorem run_snoc (dm : DiscoveryManager) (founds : List (List String)) (found : List String) :
    dm.run (founds ++ [found]) = (dm.run founds).ThreadFuncStep found := by
  simp [DiscoveryManager.run, List.foldl_append]

theorem alternating_succ (n : Nat) :
    alternating (n + 1) = alternating n ++ [if n % 2 = 0 then ["a"] else []] := by
  simp [alternating, List.range_succ]

theorem run_alternating (n : Nat) :
    (DiscoveryManager.run {} (alternating n)).mVersion = n % 2 ^ 32 ∧
    (DiscoveryManager.run {} (alternating n)).mAddresses = if n % 2 = 0 then [] else ["a"] := by
  induction n with
  | zero => exact ⟨rfl, rfl⟩
  | succ n ih =>
    obtain ⟨hv, ha⟩ := ih
    rw [alternating_succ, run_snoc]
    by_cases hp : n % 2 = 0
    · have hne : (if n % 2 = 0 then ["a"] else []) ≠
          (DiscoveryManager.run {} (alternating n)).mAddresses := by
        rw [ha]; simp [hp]
      obtain ⟨h1, h2, _⟩ := step_changed _ _ hne
      rw [h1, h2, hv]
      have hp1 : ¬ ((n + 1) % 2 = 0) := by omega
      refine ⟨by unfold u32; omega, by simp [hp, hp1]⟩
    · have hne : (if n % 2 = 0 then ["a"] else []) ≠
          (DiscoveryManager.run {} (alternating n)).mAddresses := by
        rw [ha]; simp [hp]
      obtain ⟨h1, h2, _⟩ := step_changed _ _ hne
      rw [h1, h2, hv]
      have hp1 : (n + 1) % 2 = 0 := by omega
      refine ⟨by unfold u32; omega, by simp [hp, hp1]⟩

/-- C6, as stated, fails at the top of the `uint32_t` range: after `2^32 - 1`
changes of the address list the version `Poll` reports is `2^32 - 1` and the
stored list is `["a"]`; the next enumeration, the empty list (`"a"` removed),
makes `mVersion++` wrap, and `Poll` then reports 0, which is not greater. -/
theorem C6_version_wraps :
    ((DiscoveryManager.run {} (alternating (2 ^ 32 - 1))).Poll 0).instanceVersion = 2 ^ 32 - 1 ∧
    "a" ∈ (DiscoveryManager.run {} (alternating (2 ^ 32 - 1))).mAddresses ∧
    "a" ∉ ([] : List String) ∧
    (((DiscoveryManager.run {} (alternating (2 ^ 32 - 1))).ThreadFuncStep []).Poll
      0).instanceVersion = 0 := by
  obtain ⟨hv, ha⟩ := run_alternating (2 ^ 32 - 1)
  have hodd : ¬ ((2 ^ 32 - 1) % 2 = 0) := by norm_num
  rw [if_neg hodd] at ha
  have hne : ([] : List String) ≠
      (DiscoveryManager.run {} (alternating (2 ^ 32 - 1))).mAddresses := by
    rw [ha]; intro h; cases h
  obtain ⟨h1, _, _⟩ := step_changed _ _ hne
  have hpoll : ∀ (dm : DiscoveryManager) (v : Nat), (dm.Poll v).instanceVersion = dm.mVersion :=
    fun _ _ => rfl
  rw [hpoll, hpoll, h1, hv, ha]
  refine ⟨by norm_num, List.mem_singleton.mpr rfl, ?_, by norm_num [u32]⟩
  intro h; cases h

/-- C6 (amended): in one step of the discovery loop, if the newly enumerated list
differs from the stored list by at least one element, the version `Poll` reports
after the step is the old one plus one modulo `2^32`: it always differs from the
version reported before, and is strictly greater unless the counter stood at
`2^32 - 1`; the stored list and the snapshot's addresses become the new list. -/
theorem C6_changed_list_bumps_version (dm : DiscoveryManager) (found : List String)
    (hdiff : ∃ a, (a ∈ found ∧ a ∉ dm.mAddresses) ∨ (a ∈ dm.mAddresses ∧ a ∉ found))
    (v : Nat) :
    ((dm.ThreadFuncStep found).Poll v).instanceVersion = (dm.mVersion + 1) % 2 ^ 32 ∧
    ((dm.ThreadFuncStep found).Poll v).instanceVersion ≠ (dm.Poll v).instanceVersion ∧
    (dm.mVersion < 2 ^ 32 - 1 →
      (dm.Poll v).instanceVersion < ((dm.ThreadFuncStep found).Poll v).instanceVersion) ∧
    (dm.ThreadFuncStep found).mAddresses = found ∧
    ((dm.ThreadFuncStep found).Poll v).result.addresses = found := by
  have hne : found ≠ dm.mAddresses := by
    intro h
    obtain ⟨a, ha | ha⟩ := hdiff
    · rw [h] at ha; exact ha.2 ha.1
    · rw [h] at ha; exact ha.2 ha.1
  obtain ⟨h1, h2, h3⟩ := step_changed dm found hne
  have hv : ((dm.ThreadFuncStep found).Poll v).instanceVersion = (dm.mVersion + 1) % 2 ^ 32 := h1
  have hv0 : (dm.Poll v).instanceVersion = dm.mVersion := rfl
  refine ⟨hv, ?_, ?_, h2, h3⟩
  · rw [hv, hv0]; omega
  · intro hlt; rw [hv, hv0]; omega

/-- Witness for C6: the first peer appears. -/
theorem C6_changed_list_bumps_version_witness :
    ((DiscoveryManager.ThreadFuncStep {} ["a"]).Poll 0).instanceVersion = (0 + 1) % 2 ^ 32 ∧
    ((DiscoveryManager.ThreadFuncStep {} ["a"]).Poll 0).instanceVersion
      ≠ (DiscoveryManager.Poll {} 0).instanceVersion ∧
    ((0 : Nat) < 2 ^ 32 - 1 →
      (DiscoveryManager.Poll {} 0).instanceVersion
        < ((DiscoveryManager.ThreadFuncStep {} ["a"]).Poll 0).instanceVersion) ∧
    (DiscoveryManager.ThreadFuncStep {} ["a"]).mAddresses = ["a"] ∧
    ((DiscoveryManager.ThreadFuncStep {} ["a"]).Poll 0).result.addresses = ["a"] :=
  C6_changed_list_bumps_version {} ["a"] ⟨"a", Or.inl ⟨by simp, by simp⟩⟩ 0

/-! ## C7 -/

/-- C7 (the code at the failing input): `lostSession` is connected to `"a"`, its
worker has returned after an open failure (running flag clear, handle still
joinable). A further tick with unchanged discovery leaves the session exactly as
it is: no reconnect is issued. More generally the reconnect check changes
nothing in any state whose thread handle holds a worker, returned or not. -/
theorem C7_lost_worker_not_reconnected :
    lostSession.mConnectedAddress = "a" ∧ lostSession.mRunReceive = false ∧
    lostSession.mReceiveThread = some ⟨"a", .returned, []⟩ ∧
    lostSession.ProcessOpenGL (DiscoveryManager.ThreadFuncStep {} ["a"]) none = lostSession ∧
    ∀ (s : OMTReceive) (wk : Worker) (inflight : Option MediaFrame),
      ({ s with mReceiveThread := some wk }).reconnectCheck inflight
        = { s with mReceiveThread := some wk } := by
  refine ⟨by decide, by decide, by decide, by decide, ?_⟩
  intro s wk inflight
  simp [OMTReceive.reconnectCheck, OMTReceive.joinable]

/-! ## C8 -/

/-- C8: when `Poll` reports a change and the snapshot holds exactly one address
`a`, then after the discovery update, whatever the selected index and the
connected address were, the stored connected address is `a`. If `a` differed
from the connected address the update is exactly `Connect(a)` (running flag set,
a new worker for `a` started); if it did not, no `Connect` takes effect: only the
seen version and the address list are updated. -/
theorem C8_auto_connect (s : OMTReceive) (dm : DiscoveryManager) (a : String)
    (inflight : Option MediaFrame)
    (hdirty : (dm.Poll s.mSourceVersion).result.dirty = true)
    (hone : (dm.Poll s.mSourceVersion).result.addresses = [a]) :
    (s.discoveryUpdate dm inflight).mConnectedAddress = a ∧
    (a ≠ s.mConnectedAddress →
      s.discoveryUpdate dm inflight =
        ({ s with mSourceVersion := dm.mVersion, mAddresses := [a] }).Connect a inflight ∧
      (s.discoveryUpdate dm inflight).mRunReceive = true ∧
      (s.discoveryUpdate dm inflight).mReceiveThread = some { address := a }) ∧
    (a = s.mConnectedAddress →
      s.discoveryUpdate dm inflight = { s with mSourceVersion := dm.mVersion, mAddresses := [a] }) := by
  have hver : (dm.Poll s.mSourceVersion).instanceVersion = dm.mVersion := rfl
  by_cases hc : a = s.mConnectedAddress
  · have hupd : s.discoveryUpdate dm inflight =
        { s with mSourceVersion := dm.mVersion, mAddresses := [a] } := by
      unfold OMTReceive.discoveryUpdate
      simp only [hdirty, hone, hver, if_true]
      have h1 : ¬ ([a].length = 1 ∧ s.mConnectedAddress ≠ [a].getD 0 "") := by
        simp [hc]
      rw [if_neg h1]
      have h2 : ¬ (s.mSelected.toIndex ≥ 0 ∧ s.mSelected.toIndex < ([a].length : Int) ∧
          [a].getD s.mSelected.toIndex.toNat "" ≠ s.mConnectedAddress) := by
        rintro ⟨h0, hlt, hne⟩
        have hz : s.mSelected.toIndex = 0 := by
          simp only [List.length_singleton, Nat.cast_one] at hlt; omega
        rw [hz] at hne
        simp [hc] at hne
      simp only [h2, if_false]
      simp
    refine ⟨by rw [hupd]; exact hc.symm, fun hne => absurd hc hne, fun _ => hupd⟩
  · have hupd : s.discoveryUpdate dm inflight =
        ({ s with mSourceVersion := dm.mVersion, mAddresses := [a] }).Connect a inflight := by
      unfold OMTReceive.discoveryUpdate
      simp only [hdirty, hone, hver, if_true]
      have h1 : [a].length = 1 ∧ s.mConnectedAddress ≠ [a].getD 0 "" := by
        refine ⟨rfl, ?_⟩
        simp only [List.getD_cons_zero]
        exact fun h => hc h.symm
      rw [if_pos h1]
      simp
    have hconn : ∀ t : OMTReceive, a ≠ t.mConnectedAddress →
        (t.Connect a inflight).mConnectedAddress = a ∧
        (t.Connect a inflight).mRunReceive = true ∧
        (t.Connect a inflight).mReceiveThread = some { address := a } := by
      intro t ht
      simp [OMTReceive.Connect, ht]
    obtain ⟨c1, c2, c3⟩ := hconn { s with mSourceVersion := dm.mVersion, mAddresses := [a] } hc
    rw [hupd]
    exact ⟨c1, fun _ => ⟨rfl, c2, c3⟩, fun h => absurd h hc⟩

/-- Witness for C8: a new session's first tick with the single peer `"a"`. -/
theorem C8_auto_connect_witness :
    ((OMTReceive.InitGL {}).discoveryUpdate (DiscoveryManager.ThreadFuncStep {} ["a"])
      none).mConnectedAddress = "a" ∧
    ("a" ≠ (OMTReceive.InitGL {}).mConnectedAddress →
      (OMTReceive.InitGL {}).discoveryUpdate (DiscoveryManager.ThreadFuncStep {} ["a"]) none =
        ({ OMTReceive.InitGL {} with
            mSourceVersion := (DiscoveryManager.ThreadFuncStep {} ["a"]).mVersion,
            mAddresses := ["a"] }).Connect "a" none ∧
      ((OMTReceive.InitGL {}).discoveryUpdate (DiscoveryManager.ThreadFuncStep {} ["a"])
        none).mRunReceive = true ∧
      ((OMTReceive.InitGL {}).discoveryUpdate (DiscoveryManager.ThreadFuncStep {} ["a"])
        none).mReceiveThread = some { address := "a" }) ∧
    ("a" = (OMTReceive.InitGL {}).mConnectedAddress →
      (OMTReceive.InitGL {}).discoveryUpdate (DiscoveryManager.ThreadFuncStep {} ["a"]) none =
        { OMTReceive.InitGL {} with
            mSourceVersion := (DiscoveryManager.ThreadFuncStep {} ["a"]).mVersion,
            mAddresses := ["a"] }) :=
  C8_auto_connect (OMTReceive.InitGL {}) (DiscoveryManager.ThreadFuncStep {} ["a"]) "a" none
    (by decide) (by decide)

/-! ## C9 -/

/-- C9: `Connect(address)` with the address the session already stores changes
nothing at all: address, running flag, thread handle, has-frame flag and frame
mailbox stay as they are, and no worker is joined or started. -/
theorem C9_connect_same_address_noop (s : OMTReceive) (address : String)
    (inflight : Option MediaFrame) (hsame : address = s.mConnectedAddress) :
    s.Connect address inflight = s := by
  simp [OMTReceive.Connect, hsame]

/-- Witness for C9: a session connected to `"a"` is asked to connect to `"a"`. -/
theorem C9_connect_same_address_noop_witness :
    ((OMTReceive.InitGL {}).Connect "a" none).Connect "a" (some ⟨1, 1, some [1, 2, 3, 4]⟩)
      = (OMTReceive.InitGL {}).Connect "a" none :=
  C9_connect_same_address_noop ((OMTReceive.InitGL {}).Connect "a" none) "a"
    (some ⟨1, 1, some [1, 2, 3, 4]⟩) (by decide)

/-! ## C10 -/

theorem loopBody_runReceive (s : OMTReceive) (wk : Worker) (frame : Option MediaFrame) :
    (s.loopBody wk frame).mRunReceive = s.mRunReceive := by
  unfold OMTReceive.loopBody
  split
  · rfl
  · split
    · rfl
    · split
      · rfl
      · rfl

theorem join_runReceive (s : OMTReceive) (inflight : Option MediaFrame) :
    (s.join inflight).mRunReceive = s.mRunReceive := by
  unfold OMTReceive.join
  split
  · rfl
  · split
    · exact loopBody_runReceive _ _ _
    · rfl

theorem join_thread (s : OMTReceive) (inflight : Option MediaFrame) :
    (s.join inflight).mReceiveThread = none := by
  unfold OMTReceive.join
  split
  · assumption
  · rfl

theorem disconnect_fields (s : OMTReceive) (inflight : Option MediaFrame) :
    (s.DisconnectSource inflight).mRunReceive = false ∧
    (s.DisconnectSource inflight).mReceiveThread = none ∧
    (s.DisconnectSource inflight).mConnectedAddress = "" := by
  unfold OMTReceive.DisconnectSource
  refine ⟨?_, ?_, rfl⟩
  · show (if _ then _ else _ : OMTReceive).mRunReceive = false
    split
    · rw [join_runReceive]
    · rfl
  · show (if _ then _ else _ : OMTReceive).mReceiveThread = none
    split
    · rw [join_thread]
    · rename_i hj
      cases hth : s.mReceiveThread with
      | none => rfl
      | some wk => simp [OMTReceive.joinable, hth] at hj

/-- C10: from every session state `DisconnectSource` ends with the running flag
clear, the thread handle not joinable and the stored address empty; the
reconnect check of a following tick then changes nothing (no `Connect`), and a
second `DisconnectSource` changes nothing. -/
theorem C10_disconnect (s : OMTReceive) (inflight inflight2 : Option MediaFrame) :
    (s.DisconnectSource inflight).mRunReceive = false ∧
    (s.DisconnectSource inflight).joinable = false ∧
    (s.DisconnectSource inflight).mConnectedAddress = "" ∧
    (s.DisconnectSource inflight).reconnectCheck inflight2 = s.DisconnectSource inflight ∧
    (s.DisconnectSource inflight).DisconnectSource inflight2 = s.DisconnectSource inflight := by
  obtain ⟨h1, h2, h3⟩ := disconnect_fields s inflight
  refine ⟨h1, by simp [OMTReceive.joinable, h2], h3, ?_, ?_⟩
  · have he : ("" : String).isEmpty = true := by decide
    simp [OMTReceive.reconnectCheck, h3, he]
  · generalize s.DisconnectSource inflight = d at h1 h2 h3
    cases d
    simp only at h1 h2 h3
    subst h1 h2 h3
    simp [OMTReceive.DisconnectSource, OMTReceive.joinable]

/-! ## C11 -/

/-- C11, as stated, fails in its last part: `Connect("a")` stores the address
before it starts the worker, and the worker that fails to open the connection
does not touch it, so after the failed attempt the stored address is `"a"`. -/
theorem C11_address_stored_despite_open_failure :
    (((OMTReceive.InitGL {}).Connect "a" none).workerOpen false).mConnectedAddress = "a" ∧
    (((OMTReceive.InitGL {}).Connect "a" none).workerOpen false).mRunReceive = false := by
  decide

/-- C11 (amended): when `Connect(a)` (with `a` not the stored address) starts a
worker whose `omt_receive_create` fails, the worker clears the running flag
itself and returns; it deposits no frame and changes nothing else: the frame
mailbox is as `Connect` left it, the handle stays joinable, and the stored
connected address is still `a`, as stored by `Connect` before the worker ran.
A returned worker takes no further step. -/
theorem C11_open_failure (s : OMTReceive) (a : String) (inflight : Option MediaFrame)
    (hne : a ≠ s.mConnectedAddress) (frame : Option MediaFrame) :
    ((s.Connect a inflight).workerOpen false) =
      { s.Connect a inflight with
        mRunReceive := false,
        mReceiveThread := some { address := a, phase := .returned } } ∧
    (s.Connect a inflight).mRunReceive = true ∧
    ((s.Connect a inflight).workerOpen false).mRunReceive = false ∧
    ((s.Connect a inflight).workerOpen false).mFrame = (s.Connect a inflight).mFrame ∧
    ((s.Connect a inflight).workerOpen false).joinable = true ∧
    ((s.Connect a inflight).workerOpen false).mConnectedAddress = a ∧
    ((s.Connect a inflight).workerOpen false).workerLoop frame =
      (s.Connect a inflight).workerOpen false := by
  have hc : s.Connect a inflight =
      { s.DisconnectSource inflight with
        mHasFrame := false, mConnectedAddress := a, mRunReceive := true,
        mReceiveThread := some { address := a } } := by
    simp [OMTReceive.Connect, hne]
  rw [hc]
  simp [OMTReceive.workerOpen, OMTReceive.workerLoop, OMTReceive.joinable]

/-- Witness for C11: a new session connects to `"a"` and the open fails. -/
theorem C11_open_failure_witness :
    (((OMTReceive.InitGL {}).Connect "a" none).workerOpen false) =
      { (OMTReceive.InitGL {}).Connect "a" none with
        mRunReceive := false,
        mReceiveThread := some { address := "a", phase := .returned } } ∧
    ((OMTReceive.InitGL {}).Connect "a" none).mRunReceive = true ∧
    (((OMTReceive.InitGL {}).Connect "a" none).workerOpen false).mRunReceive = false ∧
    (((OMTReceive.InitGL {}).Connect "a" none).workerOpen false).mFrame
      = ((OMTReceive.InitGL {}).Connect "a" none).mFrame ∧
    (((OMTReceive.InitGL {}).Connect "a" none).workerOpen false).joinable = true ∧
    (((OMTReceive.InitGL {}).Connect "a" none).workerOpen false).mConnectedAddress = "a" ∧
    (((OMTReceive.InitGL {}).Connect "a" none).workerOpen false).workerLoop none =
      ((OMTReceive.InitGL {}).Connect "a" none).workerOpen false :=
  C11_open_failure (OMTReceive.InitGL {}) "a" none (by decide) none

/-! ## C13 -/

theorem mem_of_latestWrite (hist : List (Op × Outcome)) (w h s : Nat) (px : List Nat)
    (hl : latestWrite hist w h s px) :
    ∃ n, Op.write w h s px n ∈ hist.map Prod.fst := by
  obtain ⟨before, n, after, rfl, _⟩ := hl
  exact ⟨n, by simp⟩

/-- C13, as stated, fails: `Write` has no size check. On a new buffer
`Write(1, 1, 4, pixels, 2)` with two bytes is accepted although
`stride * height = 4`, and the following `Read` returns that two-byte frame. -/
theorem C13_mismatched_write_accepted :
    ∃ vb1 vb2, ({} : OMTVideoBuffer).Write 1 1 4 [1, 2] 2 = some vb1 ∧
      vb1.Read 0 0 0 [] = some ⟨vb2, true, 1, 1, 4, [1, 2]⟩ ∧
      [1, 2].length ≠ 4 * 1 := by
  refine ⟨⟨(⟨1, 1, 4, [1, 2], true⟩, {}), 1⟩, ⟨(⟨1, 1, 4, [], false⟩, {}), 1⟩, ?_, ?_, ?_⟩ <;>
    decide

/-- C13 (amended): `Write` performs no size check; it stores the `dataBytes` bytes
it is given, whatever `stride * height` is. A frame returned by `Read` has
length `stride * height` whenever the writer keeps that discipline: in every run
from a new buffer in which each `Write` has `dataBytes = stride * height`, every
`Read` that returns true yields a byte buffer of exactly `stride * height`
bytes. -/
theorem C13_sizes_follow_writer (ops : List Op) (hwf : ∀ op ∈ ops, op.wf)
    (hsize : ∀ w h s px n, Op.write w h s px n ∈ ops → n = s * h) :
    ∃ vb hist, exec {} ops = some (vb, hist) ∧
      ∀ rw rh rs rout w h s px,
        (Op.read rw rh rs rout, Outcome.got w h s px) ∈ hist → px.length = s * h := by
  obtain ⟨vb, hist, hex, _, hmap, _, hgot⟩ := run_inv ops hwf
  refine ⟨vb, hist, hex, ?_⟩
  intro rw rh rs rout w h s px hin
  obtain ⟨before, after, hsplit⟩ := List.append_of_mem hin
  have hl := hgot _ _ _ _ _ _ _ _ _ _ hsplit
  obtain ⟨n, hmem⟩ := mem_of_latestWrite _ _ _ _ _ hl
  have hmem2 : Op.write w h s px n ∈ ops := by
    rw [← hmap, hsplit, List.map_append]
    exact List.mem_append_left _ hmem
  have h1 : px.length = n := hwf _ hmem2
  rw [h1]
  exact hsize _ _ _ _ _ hmem2

/-- Witness for C13: the sample run, whose writes all have `dataBytes = stride * height`. -/
theorem C13_sizes_follow_writer_witness :
    ∃ vb hist, exec {} sampleOps = some (vb, hist) ∧
      ∀ rw rh rs rout w h s px,
        (Op.read rw rh rs rout, Outcome.got w h s px) ∈ hist → px.length = s * h :=
  C13_sizes_follow_writer sampleOps (by decide) (by
    intro w h s px n hin
    simp only [sampleOps, List.mem_cons, Op.write.injEq, List.mem_singleton,
      List.not_mem_nil, or_false] at hin
    rcases hin with h1 | h1 | h1 | h1 | h1 | h1
    · obtain ⟨_, rfl, rfl, _, rfl⟩ := h1; rfl
    · obtain ⟨_, rfl, rfl, _, rfl⟩ := h1; rfl
    · cases h1
    · cases h1
    · obtain ⟨_, rfl, rfl, _, rfl⟩ := h1; rfl
    · cases h1)

/-! ## C14 -/

/-- C14: `Poll(lastVersion)` returns a copy of the current snapshot (addresses,
names, values) whose dirty flag is true exactly when `lastVersion` differs from
the current version, sets the caller's version to the current version and leaves
the manager unchanged; a second `Poll` by the same caller, with no discovery step
in between, reports dirty = false and the same addresses. -/
theorem C14_poll (dm : DiscoveryManager) (lastVersion : Nat) :
    (dm.Poll lastVersion).result.addresses = dm.mCurrent.addresses ∧
    (dm.Poll lastVersion).result.names = dm.mCurrent.names ∧
    (dm.Poll lastVersion).result.vals = dm.mCurrent.vals ∧
    ((dm.Poll lastVersion).result.dirty = true ↔ lastVersion ≠ dm.mVersion) ∧
    (dm.Poll lastVersion).instanceVersion = dm.mVersion ∧
    (dm.Poll lastVersion).manager = dm ∧
    (((dm.Poll lastVersion).manager.Poll (dm.Poll lastVersion).instanceVersion).result.dirty
      = false) ∧
    (((dm.Poll lastVersion).manager.Poll (dm.Poll lastVersion).instanceVersion).result.addresses
      = (dm.Poll lastVersion).result.addresses) := by
  simp [DiscoveryManager.Poll]

/-! ## C15 -/

theorem fillNames_eq (found : List String) :
    ∀ k i names vals, i + k = found.length →
      fillNames found k i names vals = (names ++ found.drop i, vals ++ List.range' i k) := by
  intro k
  induction k with
  | zero =>
    intro i names vals hi
    have : found.drop i = [] := List.drop_eq_nil_of_le (by omega)
    simp [fillNames, this]
  | succ k ih =>
    intro i names vals hi
    have hlt : i < found.length := by omega
    rw [fillNames, ih (i + 1) _ _ (by omega)]
    have hd : found.drop i = found.getD i "" :: found.drop (i + 1) := by
      rw [List.drop_eq_getElem_cons hlt]
      simp [List.getD_eq_getElem?_getD, List.getElem?_eq_getElem hlt]
    rw [hd, List.range'_succ]
    simp

theorem fillNames_all (found : List String) :
    fillNames found found.length 0 [] [] = (found, List.range found.length) := by
  rw [fillNames_eq found found.length 0 [] [] (by omega)]
  simp [List.range_eq_range']

/-- The shape of a snapshot: labels and values for a non-empty address list, the
placeholder for an empty one, or nothing at all. -/
theorem snapshot_shape (founds : List (List String)) :
    (DiscoveryManager.run {} founds).mCurrent.addresses = (DiscoveryManager.run {} founds).mAddresses ∧
    (((DiscoveryManager.run {} founds).mCurrent.addresses ≠ [] ∧
        (DiscoveryManager.run {} founds).mCurrent.names =
          (DiscoveryManager.run {} founds).mCurrent.addresses ∧
        (DiscoveryManager.run {} founds).mCurrent.vals =
          List.range (DiscoveryManager.run {} founds).mCurrent.addresses.length) ∨
      ((DiscoveryManager.run {} founds).mCurrent.addresses = [] ∧
        (DiscoveryManager.run {} founds).mCurrent.names = ["No sources"] ∧
        (DiscoveryManager.run {} founds).mCurrent.vals = [0]) ∨
      ((DiscoveryManager.run {} founds).mCurrent.addresses = [] ∧
        (DiscoveryManager.run {} founds).mCurrent.names = [] ∧
        (DiscoveryManager.run {} founds).mCurrent.vals = [])) := by
  induction founds using List.reverseRecOn with
  | nil => exact ⟨rfl, Or.inr (Or.inr ⟨rfl, rfl, rfl⟩)⟩
  | append_singleton founds found ih =>
    rw [run_snoc]
    generalize DiscoveryManager.run {} founds = dm at ih
    by_cases hne : found = dm.mAddresses
    · have hsame : dm.ThreadFuncStep found = dm := by
        simp [DiscoveryManager.ThreadFuncStep, hne]
      rw [hsame]; exact ih
    · by_cases hemp : found = []
      · subst hemp
        refine ⟨by simp [DiscoveryManager.ThreadFuncStep, hne], Or.inr (Or.inl ?_)⟩
        simp [DiscoveryManager.ThreadFuncStep, hne]
      · have hie : found.isEmpty = false := by
          cases found with
          | nil => exact absurd rfl hemp
          | cons a t => rfl
        refine ⟨by simp [DiscoveryManager.ThreadFuncStep, hne], Or.inl ?_⟩
        simp [DiscoveryManager.ThreadFuncStep, hne, hie, fillNames_all, hemp]

/-- C15 (the code at the failing input): before any change of the address list
(no loop step yet, or steps that enumerated nothing) the snapshot `Poll` returns
to a new plugin instance is marked dirty and has an empty address list with no
label and no value at all, not the placeholder. In every reachable state the
snapshot is of one of three shapes: a non-empty address list with label `i` =
address `i` and value `i` = `i`; an empty list with the single label
`"No sources"` and value 0; or an empty list with no label. -/
theorem C15_initial_snapshot_has_no_label :
    ((DiscoveryManager.run {} []).Poll 0xFFFFFFFF).result
      = { addresses := [], names := [], vals := [], dirty := true } ∧
    ((DiscoveryManager.run {} [[], []]).Poll 0xFFFFFFFF).result
      = { addresses := [], names := [], vals := [], dirty := true } ∧
    ((DiscoveryManager.run {} [["a"], []]).Poll 0xFFFFFFFF).result
      = { addresses := [], names := ["No sources"], vals := [0], dirty := true } ∧
    ∀ (founds : List (List String)) (v : Nat),
      ((((DiscoveryManager.run {} founds).Poll v).result.addresses ≠ [] ∧
        ((DiscoveryManager.run {} founds).Poll v).result.names =
          ((DiscoveryManager.run {} founds).Poll v).result.addresses ∧
        ((DiscoveryManager.run {} founds).Poll v).result.vals =
          List.range ((DiscoveryManager.run {} founds).Poll v).result.addresses.length) ∨
      (((DiscoveryManager.run {} founds).Poll v).result.addresses = [] ∧
        ((DiscoveryManager.run {} founds).Poll v).result.names = ["No sources"] ∧
        ((DiscoveryManager.run {} founds).Poll v).result.vals = [0]) ∨
      (((DiscoveryManager.run {} founds).Poll v).result.addresses = [] ∧
        ((DiscoveryManager.run {} founds).Poll v).result.names = [] ∧
        ((DiscoveryManager.run {} founds).Poll v).result.vals = [])) := by
  refine ⟨by decide, by decide, by decide, ?_⟩
  intro founds v
  exact (snapshot_shape founds).2

/-! ## C12 -/

theorem hwSize_eq (tex : FFGLTextureStruct)
    (h : tex.HardwareWidth * tex.HardwareHeight * 4 < 2 ^ 64) :
    hwSize tex = tex.HardwareWidth * tex.HardwareHeight * 4 := by
  unfold hwSize usize
  have h1 : tex.HardwareWidth * tex.HardwareHeight < 2 ^ 64 := by omega
  rw [Nat.mod_eq_of_lt h1, Nat.mod_eq_of_lt h]

theorem hwSize_mod (tex : FFGLTextureStruct) :
    hwSize tex = tex.HardwareWidth * tex.HardwareHeight * 4 % 2 ^ 64 := by
  unfold hwSize usize
  omega

/-- C12, as stated, fails when the padded size does not fit `size_t`: the code
compares `(size_t)hw * hh * 4`, which is the padded size modulo `2^64`. After a
tick with a 1x1 texture the recorded size is 4 and a transfer is pending; a
texture with `hw = 2147418113`, `hh = 2147549185` has the padded size
`2^64 + 4`, which differs from 4, yet the code computes 4, keeps the pending
descriptor, harvests the mapped buffer and deposits a frame into the send
mailbox. -/
theorem C12_size_wraps :
    (OMTSend.InitGL {}).ProcessOpenGL (some tinyTex) none = some (tinyPending, .FF_SUCCESS) ∧
    tinyPending.mPBOSize = 4 ∧
    overflowTex.HardwareWidth * overflowTex.HardwareHeight * 4 = 2 ^ 64 + 4 ∧
    overflowTex.HardwareWidth * overflowTex.HardwareHeight * 4 ≠ tinyPending.mPBOSize ∧
    hwSize overflowTex = 4 ∧
    ∃ s1, tinyPending.ProcessOpenGL (some overflowTex) (some [9, 8, 7, 6])
        = some (s1, .FF_SUCCESS) ∧
      s1.mVideoBuffer ≠ tinyPending.mVideoBuffer ∧
      s1.mVideoBuffer.mBuffers.1 = ⟨1, 1, 4, [9, 8, 7, 6], true⟩ ∧
      s1.mCropBuf = [9, 8, 7, 6] ∧
      s1.mPBOSize = 4 := by
  refine ⟨by decide, by decide, by decide, by decide, by decide, ?_⟩
  refine ⟨{ tinyPending with
      mVideoBuffer := ⟨(⟨1, 1, 4, [9, 8, 7, 6], true⟩, {}), 1⟩,
      mCropBuf := [9, 8, 7, 6], mPending := ⟨1, 1, 2147418113, 4⟩, mPBOWriteIdx := 0 },
    by decide, by decide, by decide, by decide, by decide⟩

/-- C12 (amended): in a tick of `OMTSend::ProcessOpenGL` that reaches the readback
(shader ready, a texture with non-zero handle and dimensions, send thread
startable), whenever the padded transfer size of the current frame as the code
computes it, `(size_t)hw * hh * 4`, that is `hw * hh * 4` modulo `2^64`, differs
from the recorded buffer size, the pending transfer is not harvested, whatever
`glMapBuffer` would return: the video buffer (send mailbox) and the crop buffer
are left as they were, the recorded size becomes the new size, and the
descriptor of the current frame becomes the pending one. -/
theorem C12_resize_discards_pending (s : OMTSend) (tex : FFGLTextureStruct)
    (mapped : Option (List Nat)) (hready : s.mShaderReady = true)
    (htex : tex.Handle ≠ 0 ∧ tex.Width ≠ 0 ∧ tex.Height ≠ 0 ∧
      tex.HardwareWidth ≠ 0 ∧ tex.HardwareHeight ≠ 0)
    (hthread : s.mRunSendThread = true ∨ s.mSendThread = none)
    (hsize : tex.HardwareWidth * tex.HardwareHeight * 4 % 2 ^ 64 ≠ s.mPBOSize) :
    ∃ s1, s.ProcessOpenGL (some tex) mapped = some (s1, .FF_SUCCESS) ∧
      s1.mVideoBuffer = s.mVideoBuffer ∧ s1.mCropBuf = s.mCropBuf ∧
      s1.mPBOSize = tex.HardwareWidth * tex.HardwareHeight * 4 % 2 ^ 64 ∧
      s1.mPending = ⟨tex.Width, tex.Height, tex.HardwareWidth, u32 (tex.Width * 4)⟩ ∧
      s1.mPBOReady = true ∧ s1.mPBOWriteIdx = 1 - s.mPBOWriteIdx := by
  rw [← hwSize_mod] at hsize ⊢
  obtain ⟨t1, t2, t3, t4, t5⟩ := htex
  have hnot : ¬ (tex.Handle = 0 ∨ tex.Width = 0 ∨ tex.Height = 0 ∨
      tex.HardwareWidth = 0 ∨ tex.HardwareHeight = 0) := by
    simp [t1, t2, t3, t4, t5]
  have hstart : ∃ s0, (if !s.mRunSendThread then s.StartSendThread else some s) = some s0 ∧
      s0.mShaderReady = true ∧ s0.mVideoBuffer = s.mVideoBuffer ∧ s0.mCropBuf = s.mCropBuf ∧
      s0.mPBOSize = s.mPBOSize ∧ s0.mPBOWriteIdx = s.mPBOWriteIdx := by
    by_cases hrun : s.mRunSendThread = true
    · exact ⟨s, by simp [hrun], hready, rfl, rfl, rfl, rfl⟩
    · have hrun2 : s.mRunSendThread = false := by simpa using hrun
      rcases hthread with h | hnone
      · exact absurd h hrun
      · exact ⟨{ s with mRunSendThread := true, mSendThread := some {} },
          by simp [hrun2, OMTSend.StartSendThread, hnone], hready, rfl, rfl, rfl, rfl⟩
  obtain ⟨s0, hs0, _, hvb, hcrop, hsz, hidx⟩ := hstart
  have hsize0 : hwSize tex ≠ s0.mPBOSize := by rw [hsz]; exact hsize
  unfold OMTSend.ProcessOpenGL
  simp only [hready, Bool.not_true, Bool.false_eq_true, if_false, hs0, hnot, hsize0,
    ne_eq, not_false_eq_true, if_true]
  refine ⟨_, rfl, ?_⟩
  split_ifs <;> simp [hvb, hcrop, hidx]

/-- Witness for C12: after one tick with a 4x2 padded texture a transfer is
pending; the next tick sees the texture padded to 8x2 and a mapped buffer of 64
bytes, and deposits nothing. -/
theorem C12_resize_discards_pending_witness :
    (OMTSend.InitGL {}).ProcessOpenGL (some sampleTex) none = some (pendingState, .FF_SUCCESS) ∧
    ∃ s1, pendingState.ProcessOpenGL (some widerTex) (some (List.replicate 64 5))
        = some (s1, .FF_SUCCESS) ∧
      s1.mVideoBuffer = pendingState.mVideoBuffer ∧ s1.mCropBuf = pendingState.mCropBuf ∧
      s1.mPBOSize = widerTex.HardwareWidth * widerTex.HardwareHeight * 4 % 2 ^ 64 ∧
      s1.mPending = ⟨widerTex.Width, widerTex.Height, widerTex.HardwareWidth,
        u32 (widerTex.Width * 4)⟩ ∧
      s1.mPBOReady = true ∧ s1.mPBOWriteIdx = 1 - pendingState.mPBOWriteIdx :=
  ⟨by decide,
   C12_resize_discards_pending pendingState widerTex (some (List.replicate 64 5)) (by decide)
     (by decide) (by decide) (by decide)⟩

/-! ## C16 -/

/-- C16: `UpdateFrameRate` with option index 0, 1, 2, 3, 4, 5 sets
`(mFrameRateN, mFrameRateD)` to (24,1), (25,1), (30000,1001), (30,1), (50,1),
(60,1), and with any other index to (60,1), changing nothing else; so after
`SetFloatParameter(PARAM_FRAMERATE, v)` the pair is one of these six and the
denominator is not zero. -/
theorem C16_frame_rate_table (s : OMTSend) (idx : Int) :
    (s.UpdateFrameRate 0).frameRate = (24, 1) ∧
    (s.UpdateFrameRate 1).frameRate = (25, 1) ∧
    (s.UpdateFrameRate 2).frameRate = (30000, 1001) ∧
    (s.UpdateFrameRate 3).frameRate = (30, 1) ∧
    (s.UpdateFrameRate 4).frameRate = (50, 1) ∧
    (s.UpdateFrameRate 5).frameRate = (60, 1) ∧
    (idx = 0 ∨ idx = 1 ∨ idx = 2 ∨ idx = 3 ∨ idx = 4 ∨ idx = 5 ∨
      (s.UpdateFrameRate idx).frameRate = (60, 1)) ∧
    s.UpdateFrameRate idx =
      { s with mFrameRateN := (s.UpdateFrameRate idx).mFrameRateN,
               mFrameRateD := (s.UpdateFrameRate idx).mFrameRateD } ∧
    (s.SetFloatParameterFrameRate idx).frameRate ∈
      [(24, 1), (25, 1), (30000, 1001), (30, 1), (50, 1), ((60 : Int), (1 : Int))] ∧
    (s.SetFloatParameterFrameRate idx).mFrameRateD ≠ 0 ∧
    (s.SetFloatParameterFrameRate idx).mFrameRateOption = idx := by
  refine ⟨rfl, rfl, rfl, rfl, rfl, rfl, ?_, ?_, ?_, ?_, ?_⟩
  · unfold OMTSend.UpdateFrameRate OMTSend.frameRate
    by_cases h0 : idx = 0
    · exact Or.inl h0
    by_cases h1 : idx = 1
    · exact Or.inr (Or.inl h1)
    by_cases h2 : idx = 2
    · exact Or.inr (Or.inr (Or.inl h2))
    by_cases h3 : idx = 3
    · exact Or.inr (Or.inr (Or.inr (Or.inl h3)))
    by_cases h4 : idx = 4
    · exact Or.inr (Or.inr (Or.inr (Or.inr (Or.inl h4))))
    · simp [h0, h1, h2, h3, h4]
  · unfold OMTSend.UpdateFrameRate
    split_ifs <;> rfl
  · unfold OMTSend.SetFloatParameterFrameRate OMTSend.UpdateFrameRate OMTSend.frameRate
    split_ifs <;> simp
  · unfold OMTSend.SetFloatParameterFrameRate OMTSend.UpdateFrameRate
    split_ifs <;> simp
  · unfold OMTSend.SetFloatParameterFrameRate OMTSend.UpdateFrameRate
    split_ifs <;> rfl

/-! ## C18 -/

/-- C18 (the code at the failing input): `failedSender` is a send plugin whose
worker failed in `omt_send_create` and returned. Its running flag is still set,
because the worker never clears it; the next tick therefore does not call
`StartSendThread`, and afterwards the handle still holds the returned worker: no
new worker was started. In general the worker's open step leaves
`mRunSendThread` as it is, and `StartSendThread` does nothing while the flag is
set. -/
theorem C18_send_open_failure_not_retried :
    (∃ s, failedSender = some s ∧ s.mRunSendThread = true ∧
      s.mSendThread = some ⟨.returned, []⟩ ∧
      ∃ s1, s.ProcessOpenGL (some sampleTex) none = some (s1, .FF_SUCCESS) ∧
        s1.mRunSendThread = true ∧ s1.mSendThread = some ⟨.returned, []⟩) ∧
    (∀ (s : OMTSend) (ok : Bool), (s.sendWorkerOpen ok).mRunSendThread = s.mRunSendThread) ∧
    (∀ s : OMTSend, ({ s with mRunSendThread := true }).StartSendThread
      = some { s with mRunSendThread := true }) := by
  refine ⟨⟨{ pendingState with mSendThread := some ⟨.returned, []⟩ }, by decide, by decide,
    by decide, { pendingState with mSendThread := some ⟨.returned, []⟩, mPBOWriteIdx := 0 },
    by decide, by decide, by decide⟩, ?_, ?_⟩
  · intro s ok
    unfold OMTSend.sendWorkerOpen
    split
    · rfl
    · split_ifs <;> rfl
  · intro s
    simp [OMTSend.StartSendThread]

/-! ## C17 -/

theorem connect_new_address (t : OMTReceive) (a : String) (inflight : Option MediaFrame)
    (hne : a ≠ t.mConnectedAddress) :
    (t.Connect a inflight).mConnectedAddress = a ∧
    (t.Connect a inflight).mReceiveThread = some { address := a } ∧
    (t.Connect a inflight).mRunReceive = true := by
  simp [OMTReceive.Connect, hne]

theorem pull_upload_address (t : OMTReceive) :
    t.pullFrame.upload.mConnectedAddress = t.mConnectedAddress := by
  unfold OMTReceive.upload OMTReceive.pullFrame
  split_ifs <;> rfl

theorem empty_isEmpty : ("" : String).isEmpty = true := by decide

theorem inv_of_thread (s : OMTReceive) (h : s.mReceiveThread.isSome = true) :
    s.addressHasThread := by
  simp [OMTReceive.addressHasThread, OMTReceive.joinable, h]

theorem inv_of_fields (s t : OMTReceive) (hs : s.addressHasThread)
    (ha : t.mConnectedAddress = s.mConnectedAddress)
    (ht : t.mReceiveThread.isSome = s.mReceiveThread.isSome) : t.addressHasThread := by
  unfold OMTReceive.addressHasThread OMTReceive.joinable at *
  rw [ha, ht]; exact hs

theorem inv_disconnect (s : OMTReceive) (inflight : Option MediaFrame) :
    (s.DisconnectSource inflight).addressHasThread := by
  unfold OMTReceive.addressHasThread
  rw [(disconnect_fields s inflight).2.2, empty_isEmpty]
  rfl

theorem inv_connect (s : OMTReceive) (a : String) (inflight : Option MediaFrame)
    (hs : s.addressHasThread) : (s.Connect a inflight).addressHasThread := by
  by_cases h : a = s.mConnectedAddress
  · have : s.Connect a inflight = s := by simp [OMTReceive.Connect, h]
    rw [this]; exact hs
  · exact inv_of_thread _ (by rw [(connect_new_address s a inflight h).2.1]; rfl)

theorem inv_discoveryUpdate (s : OMTReceive) (dm : DiscoveryManager)
    (inflight : Option MediaFrame) (hs : s.addressHasThread) :
    (s.discoveryUpdate dm inflight).addressHasThread := by
  unfold OMTReceive.discoveryUpdate
  simp only
  split_ifs
  · exact inv_connect _ _ _ (inv_of_fields s _ hs rfl rfl)
  · exact inv_connect _ _ _ (inv_of_fields s _ hs rfl rfl)
  · exact inv_of_fields s _ hs rfl rfl
  · exact inv_of_fields s _ hs rfl rfl
  · exact inv_of_fields s _ hs rfl rfl

theorem reconnect_of_inv (s : OMTReceive) (inflight : Option MediaFrame)
    (hs : s.addressHasThread) : s.reconnectCheck inflight = s := by
  unfold OMTReceive.addressHasThread at hs
  unfold OMTReceive.reconnectCheck
  have hg : ¬ ((!s.mConnectedAddress.isEmpty) = true ∧ (!s.joinable) = true) := by
    rintro ⟨h1, h2⟩
    simp only [Bool.not_eq_true', Bool.or_eq_true] at h1 h2 hs
    rcases hs with h | h
    · rw [h] at h1; exact absurd h1 (by decide)
    · rw [h] at h2; exact absurd h2 (by decide)
  simp only [hg, if_false]

theorem pull_upload_thread (t : OMTReceive) :
    t.pullFrame.upload.mReceiveThread = t.mReceiveThread := by
  unfold OMTReceive.upload OMTReceive.pullFrame
  split_ifs <;> rfl

theorem inv_tick (s : OMTReceive) (dm : DiscoveryManager) (inflight : Option MediaFrame)
    (hs : s.addressHasThread) : (s.ProcessOpenGL dm inflight).addressHasThread := by
  unfold OMTReceive.ProcessOpenGL
  split_ifs
  · exact hs
  · have h1 := inv_discoveryUpdate s dm inflight hs
    rw [reconnect_of_inv _ _ h1]
    exact inv_of_fields _ _ h1 (pull_upload_address _) (by rw [pull_upload_thread])

theorem inv_workerOpen (s : OMTReceive) (ok : Bool) (hs : s.addressHasThread) :
    (s.workerOpen ok).addressHasThread := by
  unfold OMTReceive.workerOpen
  split
  · exact hs
  · split_ifs
    · exact inv_of_thread _ rfl
    · exact inv_of_thread _ rfl
    · exact hs

theorem inv_workerLoop (s : OMTReceive) (frame : Option MediaFrame)
    (hs : s.addressHasThread) : (s.workerLoop frame).addressHasThread := by
  unfold OMTReceive.workerLoop
  split
  · exact hs
  · split_ifs
    · unfold OMTReceive.loopBody
      split
      · exact hs
      · split
        · exact hs
        · split_ifs
          · exact hs
          · exact inv_of_thread _ rfl
    · exact inv_of_thread _ rfl
    · exact hs

theorem inv_act (s : OMTReceive) (a : RxAction) (hs : s.addressHasThread) :
    (s.act a).addressHasThread := by
  cases a with
  | initGL => exact inv_of_fields s _ hs rfl rfl
  | deInitGL inflight =>
    exact inv_of_fields _ _ (inv_disconnect s inflight) rfl rfl
  | connect address inflight => exact inv_connect s address inflight hs
  | disconnect inflight => exact inv_disconnect s inflight
  | tick dm inflight => exact inv_tick s dm inflight hs
  | setSource i inflight =>
    show (s.SetFloatParameterSource i inflight).addressHasThread
    unfold OMTReceive.SetFloatParameterSource
    simp only
    split_ifs
    · exact inv_connect _ _ _ (inv_of_fields s _ hs rfl rfl)
    · exact inv_of_fields s _ hs rfl rfl
  | workerOpen ok => exact inv_workerOpen s ok hs
  | workerLoop frame => exact inv_workerLoop s frame hs

theorem inv_run (s : OMTReceive) (actions : List RxAction) (hs : s.addressHasThread) :
    (s.runActions actions).addressHasThread := by
  induction actions generalizing s with
  | nil => exact hs
  | cons a rest ih => exact ih (s.act a) (inv_act s a hs)

/-- C20: in every state a receive session reaches from its initial state through
`InitGL`, `DeInitGL`, `Connect`, `DisconnectSource`, `SetFloatParameter` on the
source parameter, `ProcessOpenGL` ticks and steps of its worker (open succeeding
or failing, loop passes, return), a stored address that is not empty comes with
a joinable thread handle; so the reconnect guard
`!mConnectedAddress.empty() && !mReceiveThread.joinable()` is false and the
reconnect check changes nothing. -/
theorem C20_reconnect_guard_never_true (actions : List RxAction)
    (inflight : Option MediaFrame) :
    ((OMTReceive.runActions {} actions).mConnectedAddress.isEmpty ||
      (OMTReceive.runActions {} actions).joinable) = true ∧
    (!(OMTReceive.runActions {} actions).mConnectedAddress.isEmpty &&
      !(OMTReceive.runActions {} actions).joinable) = false ∧
    (OMTReceive.runActions {} actions).reconnectCheck inflight
      = OMTReceive.runActions {} actions := by
  have h : (OMTReceive.runActions {} actions).addressHasThread :=
    inv_run {} actions (by unfold OMTReceive.addressHasThread; decide)
  refine ⟨h, ?_, reconnect_of_inv _ _ h⟩
  unfold OMTReceive.addressHasThread at h
  revert h
  cases (OMTReceive.runActions {} actions).mConnectedAddress.isEmpty <;>
    cases (OMTReceive.runActions {} actions).joinable <;> simp

/-! ## C19 -/

theorem u32OfInt_natCast (w : Nat) (h : w < 2 ^ 32) : u32OfInt (w : Int) = w := by
  unfold u32OfInt
  omega

theorem sim_deposit (st : OMTVideoBuffer × List Nat) (s : OMTReceive) (hsim : MailSim st s)
    (w h stride : Nat) (px : List Nat) (hwf : (MailOp.deposit w h stride px).wf) :
    ∃ st1, sendMailStep st (.deposit w h stride px) = some (st1, []) ∧
      (recvMailStep s (.deposit w h stride px)).2 = [] ∧
      MailSim st1 (recvMailStep s (.deposit w h stride px)).1 := by
  obtain ⟨hidx, hrun, ⟨wk, hwk, hph⟩, _, _⟩ := hsim
  obtain ⟨hw, hh, hpx⟩ := hwf
  have hlen : ¬ (px.length ≤ 0) := by
    cases px with
    | nil => exact absurd rfl hpx
    | cons a t => simp
  have hcopy : memcpy (resize wk.stagingPixels px.length) 0 px 0 px.length = some px :=
    memcpy_whole _ _ _ (resize_length _ _) rfl
  have hrecv : (recvMailStep s (.deposit w h stride px)).1 =
      { s with
        mFrame := { w := w, h := h, pixels := px, fresh := true },
        mReceiveThread := some { wk with stagingPixels := s.mFrame.pixels } } := by
    simp only [recvMailStep, OMTReceive.workerLoop, hwk, hph, if_true, hrun,
      OMTReceive.loopBody, hlen, if_false, OMTReceive.deposit, hcopy,
      u32OfInt_natCast w hw, u32OfInt_natCast h hh]
  have hwrite := write_eq st.1 w h stride px px.length hidx rfl
  rcases hidx with h0 | h1
  · simp only [h0, if_true] at hwrite
    refine ⟨(⟨(⟨w, h, stride, px, true⟩, st.1.mBuffers.2), 1⟩, st.2),
      by simp only [sendMailStep, hwrite], rfl, ?_⟩
    rw [hrecv]
    refine ⟨Or.inr rfl, hrun, ⟨_, rfl, hph⟩, ?_, ?_⟩
    · intro hf; simp at hf
    · intro _; simp [OMTVideoBuffer.front, hpx]
  · simp only [h1, show ¬ ((1 : Int) = 0) by decide, if_false] at hwrite
    refine ⟨(⟨(st.1.mBuffers.1, ⟨w, h, stride, px, true⟩), 0⟩, st.2),
      by simp only [sendMailStep, hwrite], rfl, ?_⟩
    rw [hrecv]
    refine ⟨Or.inl rfl, hrun, ⟨_, rfl, hph⟩, ?_, ?_⟩
    · intro hf; simp at hf
    · intro _; simp [OMTVideoBuffer.front, hpx]

theorem sim_withdraw (st : OMTVideoBuffer × List Nat) (s : OMTReceive) (hsim : MailSim st s) :
    ∃ st1, sendMailStep st .withdraw = some (st1, (recvMailStep s .withdraw).2) ∧
      MailSim st1 (recvMailStep s .withdraw).1 := by
  obtain ⟨hidx, hrun, ⟨wk, hwk, hph⟩, hstale, hfresh⟩ := hsim
  by_cases hf : s.mFrame.fresh = true
  · obtain ⟨f1, f2, f3, f4, f5⟩ := hfresh hf
    have hrecv : recvMailStep s .withdraw =
        ({ s with mUploadW := s.mFrame.w, mUploadH := s.mFrame.h,
                  mUploadPixels := s.mFrame.pixels,
                  mFrame := { s.mFrame with pixels := s.mUploadPixels, fresh := false } },
         [some (s.mFrame.w, s.mFrame.h, s.mFrame.pixels)]) := by
      simp [recvMailStep, OMTReceive.pullFrame, hf]
    rw [hrecv]
    rcases hidx with h0 | h1
    · simp only [OMTVideoBuffer.front, h0, show ¬ ((0 : Int) = 1) by decide, if_false]
        at f1 f2 f3 f4 f5
      refine ⟨(⟨(st.1.mBuffers.1, { st.1.mBuffers.2 with pixels := st.2, fresh := false }), 0⟩,
        st.1.mBuffers.2.pixels), ?_, Or.inl rfl, hrun, ⟨wk, hwk, hph⟩, ?_, ?_⟩
      · have hne : s.mFrame.pixels ≠ [] := f5 ▸ f2
        simp only [sendMailStep, read_fresh]
        simp [h0, f1, f3, f4, f5, hne]
      · intro _; simp [OMTVideoBuffer.front]
      · intro h; simp at h
    · simp only [OMTVideoBuffer.front, h1, if_true] at f1 f2 f3 f4 f5
      refine ⟨(⟨({ st.1.mBuffers.1 with pixels := st.2, fresh := false }, st.1.mBuffers.2), 1⟩,
        st.1.mBuffers.1.pixels), ?_, Or.inr rfl, hrun, ⟨wk, hwk, hph⟩, ?_, ?_⟩
      · have hne : s.mFrame.pixels ≠ [] := f5 ▸ f2
        simp only [sendMailStep, read_fresh]
        simp [h1, f1, f3, f4, f5, hne]
      · intro _; simp [OMTVideoBuffer.front]
      · intro h; simp at h
  · have hf2 : s.mFrame.fresh = false := by simpa using hf
    have hs := hstale hf2
    have hrecv : recvMailStep s .withdraw = (s, [none]) := by
      simp [recvMailStep, OMTReceive.pullFrame, hf2]
    rw [hrecv]
    refine ⟨st, ?_, hidx, hrun, ⟨wk, hwk, hph⟩, hstale, hfresh⟩
    rcases hidx with h0 | h1
    · simp only [OMTVideoBuffer.front, h0, show ¬ ((0 : Int) = 1) by decide, if_false] at hs
      simp only [sendMailStep, read_fresh]
      simp [h0, hs]
    · simp only [OMTVideoBuffer.front, h1, if_true] at hs
      simp only [sendMailStep, read_fresh]
      simp [h1, hs]

theorem sim_run (ops : List MailOp) :
    ∀ (st : OMTVideoBuffer × List Nat) (s : OMTReceive), MailSim st s →
      (∀ op ∈ ops, op.wf) →
      ∃ st1, runSendMail st ops = some (st1, (runRecvMail s ops).2) ∧
        MailSim st1 (runRecvMail s ops).1 := by
  induction ops with
  | nil =>
    intro st s hsim _
    exact ⟨st, rfl, hsim⟩
  | cons op rest ih =>
    intro st s hsim hwf
    have hop : op.wf := hwf op (by simp)
    have hrest : ∀ o ∈ rest, o.wf := fun o ho => hwf o (List.mem_cons_of_mem _ ho)
    cases op with
    | deposit w h stride px =>
      obtain ⟨st1, hs1, hr1, hsim1⟩ := sim_deposit st s hsim w h stride px hop
      obtain ⟨st2, hs2, hsim2⟩ := ih st1 _ hsim1 hrest
      refine ⟨st2, ?_, hsim2⟩
      simp only [runSendMail, hs1, hs2, runRecvMail, hr1]
    | withdraw =>
      obtain ⟨st1, hs1, hsim1⟩ := sim_withdraw st s hsim
      obtain ⟨st2, hs2, hsim2⟩ := ih st1 _ hsim1 hrest
      refine ⟨st2, ?_, hsim2⟩
      simp only [runSendMail, hs1, hs2, runRecvMail]

/-- C19: for every finite sequence of deposits of non-empty frames (with 32-bit
dimensions) and withdrawals, the receive-path mailbox (the `mFrame` slot of a
session whose worker is in its receive loop, nothing fresh in it) and the
send-path `OMTVideoBuffer` (new, whatever the reader's buffer holds) show the
reader the same thing: the send path runs to completion and the two lists of
deliveries, one entry per withdrawal, are equal; each entry is either "no new
data" on both paths or the same width, height and bytes on both. -/
theorem C19_mailboxes_equivalent (ops : List MailOp) (hwf : ∀ op ∈ ops, op.wf)
    (s : OMTReceive) (wk : Worker) (pixelBuf : List Nat)
    (hwk : s.mReceiveThread = some wk) (hph : wk.phase = .receiving)
    (hrun : s.mRunReceive = true) (hstale : s.mFrame.fresh = false) :
    ∃ st1, runSendMail ({}, pixelBuf) ops = some (st1, (runRecvMail s ops).2) := by
  have hsim : MailSim ({}, pixelBuf) s := by
    refine ⟨Or.inl rfl, hrun, ⟨wk, hwk, hph⟩, fun _ => rfl, ?_⟩
    intro h; rw [hstale] at h; exact absurd h (by decide)
  obtain ⟨st1, h1, _⟩ := sim_run ops _ s hsim hwf
  exact ⟨st1, h1⟩

/-- Witness for C19: the sample traffic through both mailboxes; the deliveries
are the second deposit, nothing, the third deposit. -/
theorem C19_mailboxes_equivalent_witness :
    (runRecvMail receivingSession sampleMail).2 =
      [some (1, 1, [5, 6, 7, 8]), none, some (2, 1, [9, 9, 9, 9, 8, 8, 8, 8])] ∧
    ∃ st1, runSendMail ({}, []) sampleMail =
      some (st1, (runRecvMail receivingSession sampleMail).2) :=
  ⟨by decide,
   C19_mailboxes_equivalent sampleMail (by decide) receivingSession
     { address := "a", phase := .receiving } [] (by decide) rfl (by decide) (by decide)⟩

/-! ## C21 -/

theorem padded_facts (tex : FFGLTextureStruct) (hp : tex.padded)
    (hHW : tex.HardwareWidth ≠ 0) (hHH : tex.HardwareHeight ≠ 0) :
    tex.Width * 4 < 2 ^ 32 ∧ tex.Height < 2 ^ 32 ∧
    tex.Height * tex.HardwareWidth * 4 ≤ tex.HardwareWidth * tex.HardwareHeight * 4 ∧
    hwSize tex = tex.HardwareWidth * tex.HardwareHeight * 4 := by
  obtain ⟨hw, hh, hb⟩ := hp
  have h1 : tex.HardwareWidth * 1 ≤ tex.HardwareWidth * tex.HardwareHeight :=
    Nat.mul_le_mul_left _ (by omega)
  have h2 : 1 * tex.HardwareHeight ≤ tex.HardwareWidth * tex.HardwareHeight :=
    Nat.mul_le_mul_right _ (by omega)
  have h3 : tex.Height * tex.HardwareWidth ≤ tex.HardwareHeight * tex.HardwareWidth :=
    Nat.mul_le_mul_right _ hh
  rw [Nat.mul_comm tex.HardwareHeight tex.HardwareWidth] at h3
  refine ⟨by omega, by omega, by omega, hwSize_eq tex (by omega)⟩

theorem pending_bounds (tex : FFGLTextureStruct) (hp : tex.padded)
    (hHW : tex.HardwareWidth ≠ 0) (hHH : tex.HardwareHeight ≠ 0) (row : Nat)
    (hrow : row < tex.Height) :
    srcOffset ⟨tex.Width, tex.Height, tex.HardwareWidth, u32 (tex.Width * 4)⟩ row
      = (tex.Height - 1 - row) * tex.HardwareWidth * 4 ∧
    (tex.Height - 1 - row) * tex.HardwareWidth * 4 + u32 (tex.Width * 4) ≤ hwSize tex ∧
    dstOffset ⟨tex.Width, tex.Height, tex.HardwareWidth, u32 (tex.Width * 4)⟩ row
      = row * u32 (tex.Width * 4) ∧
    row * u32 (tex.Width * 4) + u32 (tex.Width * 4) ≤ u32 (tex.Width * 4) * tex.Height := by
  obtain ⟨f1, f2, f3, f4⟩ := padded_facts tex hp hHW hHH
  have hb := hp.2.2
  have hw := hp.1
  have hS : u32 (tex.Width * 4) = tex.Width * 4 := by
    unfold u32; exact Nat.mod_eq_of_lt f1
  have hbound : tex.Height * tex.HardwareWidth * 4 < 2 ^ 32 := by omega
  have hsrc := srcOffset_eq ⟨tex.Width, tex.Height, tex.HardwareWidth, u32 (tex.Width * 4)⟩ row
    hrow hbound f2
  have h5 : (tex.Height - 1 - row + 1) * (tex.HardwareWidth * 4)
      ≤ tex.Height * (tex.HardwareWidth * 4) := Nat.mul_le_mul_right _ (by omega)
  rw [Nat.add_mul] at h5
  have h6 : (row + 1) * (tex.Width * 4) ≤ tex.Height * (tex.Width * 4) :=
    Nat.mul_le_mul_right _ (by omega)
  rw [Nat.add_mul] at h6
  have h7 : tex.Height * (tex.Width * 4) ≤ tex.Height * (tex.HardwareWidth * 4) :=
    Nat.mul_le_mul_left _ (by omega)
  have e1 : (tex.Height - 1 - row) * tex.HardwareWidth * 4
      = (tex.Height - 1 - row) * (tex.HardwareWidth * 4) := Nat.mul_assoc _ _ _
  have e2 : tex.Height * tex.HardwareWidth * 4 = tex.Height * (tex.HardwareWidth * 4) :=
    Nat.mul_assoc _ _ _
  refine ⟨?_, ?_, ?_, ?_⟩
  · rw [hsrc, e1]
  · rw [hS, f4, e1]; omega
  · unfold dstOffset
    show u32 (row * u32 (tex.Width * 4)) = _
    rw [hS]; unfold u32; exact Nat.mod_eq_of_lt (by omega)
  · rw [hS, Nat.mul_comm (tex.Width * 4) tex.Height]; omega

theorem write_indexOk (vb vb1 : OMTVideoBuffer) (w h s : Nat) (px : List Nat) (n : Nat)
    (hw : vb.Write w h s px n = some vb1) : vb1.indexOk := by
  by_cases h0 : vb.mBackIndex = 0
  · simp only [OMTVideoBuffer.Write, OMTVideoBuffer.slot, OMTVideoBuffer.setSlot, h0, if_true,
      Option.bind_eq_bind, Option.some_bind] at hw
    cases hm : memcpy (resize vb.mBuffers.1.pixels n) 0 px 0 n with
    | none => simp [hm] at hw
    | some c =>
      simp only [hm, Option.some_bind, Option.pure_def, Option.some.injEq] at hw
      subst hw; right; rfl
  · by_cases h1 : vb.mBackIndex = 1
    · simp only [OMTVideoBuffer.Write, OMTVideoBuffer.slot, OMTVideoBuffer.setSlot, h1,
        show ¬ ((1 : Int) = 0) by decide, if_false, if_true,
        Option.bind_eq_bind, Option.some_bind] at hw
      cases hm : memcpy (resize vb.mBuffers.2.pixels n) 0 px 0 n with
      | none => simp [hm] at hw
      | some c =>
        simp only [hm, Option.some_bind, Option.pure_def, Option.some.injEq] at hw
        subst hw; left; rfl
    · simp [OMTVideoBuffer.Write, OMTVideoBuffer.slot, h0, h1] at hw

theorem harvest_indexOk (pf : PendingFrame) (src crop : List Nat) (vb : OMTVideoBuffer)
    (c1 : List Nat) (vb1 : OMTVideoBuffer) (h : harvest pf src crop vb = some (c1, vb1)) :
    vb1.indexOk := by
  unfold harvest at h
  split at h
  · cases h
  · split at h
    · cases h
    · rename_i hw
      simp only [Option.some.injEq, Prod.mk.injEq] at h
      rw [← h.2]
      exact write_indexOk _ _ _ _ _ _ _ hw

theorem start_thread_ok (s : OMTSend)
    (hth : s.mRunSendThread = true ∨ s.mSendThread = none) :
    ∃ s0, (if !s.mRunSendThread then s.StartSendThread else some s) = some s0 ∧
      s0.mShaderReady = s.mShaderReady ∧ s0.mVideoBuffer = s.mVideoBuffer ∧
      s0.mCropBuf = s.mCropBuf ∧ s0.mPBOSize = s.mPBOSize ∧
      s0.mPBOWriteIdx = s.mPBOWriteIdx ∧ s0.mPBOReady = s.mPBOReady ∧
      s0.mPending = s.mPending ∧ s0.mRunSendThread = true := by
  by_cases hrun : s.mRunSendThread = true
  · exact ⟨s, by simp [hrun], rfl, rfl, rfl, rfl, rfl, rfl, rfl, hrun⟩
  · have hrun2 : s.mRunSendThread = false := by simpa using hrun
    rcases hth with h | hnone
    · exact absurd h hrun
    · exact ⟨{ s with mRunSendThread := true, mSendThread := some {} },
        by simp [hrun2, OMTSend.StartSendThread, hnone], rfl, rfl, rfl, rfl, rfl, rfl, rfl, rfl⟩

theorem tick_cases (s : OMTSend) (input : Option FFGLTextureStruct)
    (mapped : Option (List Nat)) (s1 : OMTSend) (r : FFResult)
    (hth : s.mRunSendThread = true ∨ s.mSendThread = none)
    (h : s.ProcessOpenGL input mapped = some (s1, r)) :
    (s1.mPBOReady = s.mPBOReady ∧ s1.mPending = s.mPending ∧ s1.mPBOSize = s.mPBOSize ∧
      s1.mVideoBuffer = s.mVideoBuffer ∧ s1.mCropBuf = s.mCropBuf ∧
      (s1.mRunSendThread = true ∨ s1.mSendThread = none)) ∨
    (∃ tex, input = some tex ∧ tex.Width ≠ 0 ∧ tex.Height ≠ 0 ∧ tex.HardwareWidth ≠ 0 ∧
      tex.HardwareHeight ≠ 0 ∧ s1.mPBOReady = true ∧
      s1.mPending = ⟨tex.Width, tex.Height, tex.HardwareWidth, u32 (tex.Width * 4)⟩ ∧
      s1.mPBOSize = hwSize tex ∧ s1.mRunSendThread = true ∧
      ((s1.mVideoBuffer = s.mVideoBuffer ∧ s1.mCropBuf = s.mCropBuf) ∨
       (s.mPBOReady = true ∧ hwSize tex = s.mPBOSize ∧ ∃ src, mapped = some src ∧
          harvest s.mPending src s.mCropBuf s.mVideoBuffer
            = some (s1.mCropBuf, s1.mVideoBuffer)))) := by
  cases input with
  | none =>
    simp only [OMTSend.ProcessOpenGL, Option.some.injEq, Prod.mk.injEq] at h
    obtain ⟨h1, _⟩ := h
    subst h1
    exact Or.inl ⟨rfl, rfl, rfl, rfl, rfl, hth⟩
  | some tex =>
    by_cases hsh : s.mShaderReady = true
    · obtain ⟨s0, hs0, _, e2, e3, e4, _, e6, e7, e8⟩ := start_thread_ok s hth
      by_cases hz : tex.Handle = 0 ∨ tex.Width = 0 ∨ tex.Height = 0 ∨
          tex.HardwareWidth = 0 ∨ tex.HardwareHeight = 0
      · simp only [OMTSend.ProcessOpenGL, hsh, Bool.not_true, Bool.false_eq_true, if_false,
          hs0, hz, if_true, Option.some.injEq, Prod.mk.injEq] at h
        obtain ⟨h1, _⟩ := h
        subst h1
        exact Or.inl ⟨e6, e7, e4, e2, e3, Or.inl e8⟩
      · have hnz : tex.Width ≠ 0 ∧ tex.Height ≠ 0 ∧ tex.HardwareWidth ≠ 0 ∧
            tex.HardwareHeight ≠ 0 := by
          refine ⟨?_, ?_, ?_, ?_⟩ <;> (intro hc; exact hz (by simp [hc]))
        right
        refine ⟨tex, rfl, hnz.1, hnz.2.1, hnz.2.2.1, hnz.2.2.2, ?_⟩
        by_cases hsz : hwSize tex = s0.mPBOSize
        · by_cases hr : s0.mPBOReady = true
          · cases mapped with
            | none =>
              simp only [OMTSend.ProcessOpenGL, hsh, Bool.not_true, Bool.false_eq_true,
                if_false, hs0, hz, hsz, ne_eq, not_true_eq_false, hr, if_true,
                Option.some.injEq, Prod.mk.injEq] at h
              obtain ⟨h1, _⟩ := h
              subst h1
              split_ifs <;> simp [e2, e3, e8, hsz]
            | some src =>
              cases hv : harvest s0.mPending src s0.mCropBuf s0.mVideoBuffer with
              | none =>
                simp only [OMTSend.ProcessOpenGL, hsh, Bool.not_true, Bool.false_eq_true,
                  if_false, hs0, hz, hsz, ne_eq, not_true_eq_false, hr, if_true, hv] at h
                cases h
              | some cv =>
                obtain ⟨crop, vb⟩ := cv
                simp only [OMTSend.ProcessOpenGL, hsh, Bool.not_true, Bool.false_eq_true,
                  if_false, hs0, hz, hsz, ne_eq, not_true_eq_false, hr, if_true, hv,
                  Option.some.injEq, Prod.mk.injEq] at h
                obtain ⟨h1, _⟩ := h
                subst h1
                rw [e7, e3, e2] at hv
                rw [e6] at hr
                rw [e4] at hsz
                split_ifs <;> simp [e8, hsz, hr, hv, e4]
          · have hr2 : s0.mPBOReady = false := by simpa using hr
            simp only [OMTSend.ProcessOpenGL, hsh, Bool.not_true, Bool.false_eq_true,
              if_false, hs0, hz, hsz, ne_eq, not_true_eq_false, hr2, if_true,
              Option.some.injEq, Prod.mk.injEq] at h
            obtain ⟨h1, _⟩ := h
            subst h1
            split_ifs <;> simp [e2, e3, e8, hsz]
        · simp only [OMTSend.ProcessOpenGL, hsh, Bool.not_true, Bool.false_eq_true,
            if_false, hs0, hz, hsz, ne_eq, not_false_eq_true, if_true,
            Option.some.injEq, Prod.mk.injEq] at h
          obtain ⟨h1, _⟩ := h
          subst h1
          split_ifs <;> simp [e2, e3, e8]
    · have hsh2 : s.mShaderReady = false := by simpa using hsh
      simp only [OMTSend.ProcessOpenGL, hsh2, Bool.not_false, if_true, Option.some.injEq,
        Prod.mk.injEq] at h
      obtain ⟨h1, _⟩ := h
      subst h1
      exact Or.inl ⟨rfl, rfl, rfl, rfl, rfl, hth⟩

theorem read_indexOk (vb : OMTVideoBuffer) (w h s : Nat) (out : List Nat) (r : ReadResult)
    (hr : vb.Read w h s out = some r) : r.buffer.indexOk ∧ vb.indexOk := by
  rw [read_fresh] at hr
  by_cases h1 : vb.mBackIndex = 1
  · simp only [h1, if_true] at hr
    split at hr <;> (injection hr with hr; subst hr; exact ⟨Or.inr (by simp [h1]), Or.inr h1⟩)
  · by_cases h0 : vb.mBackIndex = 0
    · simp only [h0, show ¬ ((0 : Int) = 1) by decide, if_false, if_true] at hr
      split at hr <;> (injection hr with hr; subst hr; exact ⟨Or.inl (by simp [h0]), Or.inl h0⟩)
    · simp [h0, h1] at hr

theorem inv_tick_tx (s : OMTSend) (hs : s.readbackOk) (input : Option FFGLTextureStruct)
    (mapped : Option (List Nat)) (hin : ∀ tex, input = some tex → tex.padded)
    (s1 : OMTSend) (r : FFResult) (h : s.ProcessOpenGL input mapped = some (s1, r)) :
    s1.readbackOk := by
  obtain ⟨hpend, hidx, hth⟩ := hs
  rcases tick_cases s input mapped s1 r hth h with
    ⟨c1, c2, c3, c4, c5, c6⟩ | ⟨tex, ht, _, t2, t3, t4, c1, c2, c3, c4, c5⟩
  · refine ⟨?_, by rw [c4]; exact hidx, c6⟩
    intro hr
    rw [c1] at hr
    rw [c2, c3]
    exact hpend hr
  · refine ⟨fun _ => ⟨tex, hin tex ht, t2, t3, t4, c2, c3⟩, ?_, Or.inl c4⟩
    rcases c5 with ⟨c6, _⟩ | ⟨_, _, src, _, hv⟩
    · rw [c6]; exact hidx
    · exact harvest_indexOk _ _ _ _ _ _ hv

theorem inv_loopBody_tx (s : OMTSend) (wk : SendWorker)
    (hrun : s.mRunSendThread = true) (s1 : OMTSend) (f : Option SentFrame)
    (h : s.sendLoopBody wk = some (s1, f)) :
    (s1.mPBOReady = s.mPBOReady ∧ s1.mPending = s.mPending ∧ s1.mPBOSize = s.mPBOSize) ∧
    s1.mVideoBuffer.indexOk ∧ s1.mRunSendThread = true := by
  unfold OMTSend.sendLoopBody at h
  cases hr : s.mVideoBuffer.Read 0 0 0 wk.pixelBuf with
  | none => simp [hr] at h
  | some r =>
    have hi := (read_indexOk _ _ _ _ _ _ hr).1
    simp only [hr] at h
    split_ifs at h <;>
      (simp only [Option.some.injEq, Prod.mk.injEq] at h
       obtain ⟨h1, _⟩ := h
       subst h1
       exact ⟨⟨rfl, rfl, rfl⟩, hi, hrun⟩)

theorem inv_stop_tx (s : OMTSend) (hs : s.readbackOk) (midPass : Bool) (s1 : OMTSend)
    (h : s.StopSendThread midPass = some s1) :
    (s1.mPBOReady = s.mPBOReady ∧ s1.mPending = s.mPending ∧ s1.mPBOSize = s.mPBOSize) ∧
    s1.mVideoBuffer.indexOk ∧ s1.mSendThread = none := by
  obtain ⟨_, hidx, _⟩ := hs
  unfold OMTSend.StopSendThread at h
  simp only at h
  split at h
  · simp only [Option.some.injEq] at h
    subst h
    exact ⟨⟨rfl, rfl, rfl⟩, hidx, by assumption⟩
  · rename_i wk hth
    split_ifs at h with hph hm
    · split at h
      · cases h
      · rename_i s2 f hb
        simp only [Option.some.injEq] at h
        subst h
        unfold OMTSend.sendLoopBody at hb
        simp only at hb
        cases hr : s.mVideoBuffer.Read 0 0 0 wk.pixelBuf with
        | none => simp [hr] at hb
        | some r =>
          have hi := (read_indexOk _ _ _ _ _ _ hr).1
          simp only [hr] at hb
          split_ifs at hb <;>
            (simp only [Option.some.injEq, Prod.mk.injEq] at hb
             obtain ⟨h1, _⟩ := hb
             subst h1
             exact ⟨⟨rfl, rfl, rfl⟩, hi, rfl⟩)
    · simp only [Option.some.injEq] at h
      subst h
      exact ⟨⟨rfl, rfl, rfl⟩, hidx, rfl⟩
    · simp only [Option.some.injEq] at h
      subst h
      exact ⟨⟨rfl, rfl, rfl⟩, hidx, rfl⟩

theorem readbackOk_of_fields (s t : OMTSend) (hs : s.readbackOk)
    (h1 : t.mPBOReady = s.mPBOReady) (h2 : t.mPending = s.mPending)
    (h3 : t.mPBOSize = s.mPBOSize) (h4 : t.mVideoBuffer.indexOk)
    (h5 : t.mRunSendThread = true ∨ t.mSendThread = none) : t.readbackOk := by
  refine ⟨?_, h4, h5⟩
  intro hr
  rw [h1] at hr
  rw [h2, h3]
  exact hs.1 hr

theorem inv_act_tx (s : OMTSend) (hs : s.readbackOk) (a : TxAction) (ha : a.texOk)
    (s1 : OMTSend) (h : s.act a = some s1) : s1.readbackOk := by
  cases a with
  | initGL =>
    simp only [OMTSend.act, Option.some.injEq] at h
    subst h
    exact readbackOk_of_fields s _ hs rfl rfl rfl hs.2.1 hs.2.2
  | deInitGL midPass =>
    simp only [OMTSend.act, OMTSend.DeInitGL] at h
    split at h
    · cases h
    · rename_i s2 hstop
      simp only [Option.some.injEq] at h
      subst h
      obtain ⟨_, hi, hn⟩ := inv_stop_tx s hs midPass s2 hstop
      exact ⟨fun hr => absurd hr (by simp), hi, Or.inr hn⟩
  | tick input mapped =>
    simp only [OMTSend.act] at h
    split at h
    · cases h
    · rename_i s2 r htick
      simp only [Option.some.injEq] at h
      subst h
      refine inv_tick_tx s hs input mapped ?_ s2 r htick
      intro tex ht
      subst ht
      exact ha
  | setFrameRate idx =>
    simp only [OMTSend.act, Option.some.injEq] at h
    subst h
    unfold OMTSend.SetFloatParameterFrameRate OMTSend.UpdateFrameRate
    split_ifs <;> exact readbackOk_of_fields s _ hs rfl rfl rfl hs.2.1 hs.2.2
  | workerOpen ok =>
    simp only [OMTSend.act, Option.some.injEq] at h
    subst h
    unfold OMTSend.sendWorkerOpen
    split
    · exact hs
    · rename_i wk hth
      have hrun : s.mRunSendThread = true := by
        rcases hs.2.2 with h1 | h1
        · exact h1
        · rw [hth] at h1; cases h1
      split_ifs <;>
        first
          | exact hs
          | exact readbackOk_of_fields s _ hs rfl rfl rfl hs.2.1 (Or.inl hrun)
  | workerLoop =>
    simp only [OMTSend.act] at h
    split at h
    · cases h
    · rename_i s2 f hloop
      simp only [Option.some.injEq] at h
      subst h
      unfold OMTSend.sendWorkerLoop at hloop
      split at hloop
      · simp only [Option.some.injEq, Prod.mk.injEq] at hloop
        rw [← hloop.1]; exact hs
      · rename_i wk hth
        have hrun : s.mRunSendThread = true := by
          rcases hs.2.2 with h1 | h1
          · exact h1
          · rw [hth] at h1; cases h1
        split_ifs at hloop with hph
        · obtain ⟨⟨e1, e2, e3⟩, hi, hr⟩ := inv_loopBody_tx s wk hrun s2 f hloop
          exact readbackOk_of_fields s _ hs e1 e2 e3 hi (Or.inl hr)
        · simp only [Option.some.injEq, Prod.mk.injEq] at hloop
          rw [← hloop.1]; exact hs

theorem inv_run_tx (actions : List TxAction) :
    ∀ (s : OMTSend), s.readbackOk → (∀ a ∈ actions, a.texOk) →
      ∀ s1, s.runActions actions = some s1 → s1.readbackOk := by
  induction actions with
  | nil =>
    intro s hs _ s1 h
    simp only [OMTSend.runActions, Option.some.injEq] at h
    rw [← h]; exact hs
  | cons a rest ih =>
    intro s hs hok s1 h
    simp only [OMTSend.runActions] at h
    split at h
    · cases h
    · rename_i s2 hact
      exact ih s2 (inv_act_tx s hs a (hok a (by simp)) s2 hact)
        (fun b hb => hok b (List.mem_cons_of_mem _ hb)) s1 h

theorem tick_none (s : OMTSend) (input : Option FFGLTextureStruct)
    (mapped : Option (List Nat))
    (hth : s.mRunSendThread = true ∨ s.mSendThread = none)
    (h : s.ProcessOpenGL input mapped = none) :
    s.mPBOReady = true ∧ ∃ src, mapped = some src ∧
      harvest s.mPending src s.mCropBuf s.mVideoBuffer = none := by
  cases input with
  | none => simp [OMTSend.ProcessOpenGL] at h
  | some tex =>
    by_cases hsh : s.mShaderReady = true
    · obtain ⟨s0, hs0, _, e2, e3, e4, _, e6, e7, e8⟩ := start_thread_ok s hth
      by_cases hz : tex.Handle = 0 ∨ tex.Width = 0 ∨ tex.Height = 0 ∨
          tex.HardwareWidth = 0 ∨ tex.HardwareHeight = 0
      · simp only [OMTSend.ProcessOpenGL, hsh, Bool.not_true, Bool.false_eq_true, if_false,
          hs0, hz, if_true] at h
        cases h
      · by_cases hsz : hwSize tex = s0.mPBOSize
        · by_cases hr : s0.mPBOReady = true
          · cases mapped with
            | none =>
              simp only [OMTSend.ProcessOpenGL, hsh, Bool.not_true, Bool.false_eq_true,
                if_false, hs0, hz, hsz, ne_eq, not_true_eq_false, hr, if_true] at h
              cases h
            | some src =>
              cases hv : harvest s0.mPending src s0.mCropBuf s0.mVideoBuffer with
              | none =>
                rw [e7, e3, e2] at hv
                rw [e6] at hr
                exact ⟨hr, src, rfl, hv⟩
              | some cv =>
                obtain ⟨crop, vb⟩ := cv
                simp only [OMTSend.ProcessOpenGL, hsh, Bool.not_true, Bool.false_eq_true,
                  if_false, hs0, hz, hsz, ne_eq, not_true_eq_false, hr, if_true, hv] at h
                cases h
          · have hr2 : s0.mPBOReady = false := by simpa using hr
            simp only [OMTSend.ProcessOpenGL, hsh, Bool.not_true, Bool.false_eq_true,
              if_false, hs0, hz, hsz, ne_eq, not_true_eq_false, hr2, if_true] at h
            cases h
        · simp only [OMTSend.ProcessOpenGL, hsh, Bool.not_true, Bool.false_eq_true,
            if_false, hs0, hz, hsz, ne_eq, not_false_eq_true, if_true] at h
          cases h
    · have hsh2 : s.mShaderReady = false := by simpa using hsh
      simp [OMTSend.ProcessOpenGL, hsh2] at h

theorem harvest_pending_ok (s : OMTSend) (hs : s.readbackOk) (hr : s.mPBOReady = true)
    (src : List Nat) (hlen : s.mPBOSize ≤ src.length) :
    ∃ crop vb, harvest s.mPending src s.mCropBuf s.mVideoBuffer = some (crop, vb) := by
  obtain ⟨hpend, hidx, _⟩ := hs
  obtain ⟨tex, hp, _, hHW, hHH, hpf, hsize⟩ := hpend hr
  obtain ⟨f1, f2, _, _⟩ := padded_facts tex hp hHW hHH
  have hstr : u32 (tex.Width * 4) < 2 ^ 32 := by
    unfold u32; exact Nat.mod_lt _ (by norm_num)
  have hprod : u32 (tex.Width * 4) * tex.Height < 2 ^ 32 * 2 ^ 32 :=
    Nat.mul_lt_mul'' hstr f2
  obtain ⟨crop, vb, hh, _⟩ := harvest_spec
    ⟨tex.Width, tex.Height, tex.HardwareWidth, u32 (tex.Width * 4)⟩ src s.mCropBuf
    s.mVideoBuffer f2 (by
      show u32 (tex.Width * 4) * tex.Height < 2 ^ 64
      have : (2 : Nat) ^ 32 * 2 ^ 32 = 2 ^ 64 := by norm_num
      omega) hidx
    (fun r hrow => (pending_bounds tex hp hHW hHH r hrow).2.2.1)
    (fun r hrow => by
      obtain ⟨b1, b2, _, _⟩ := pending_bounds tex hp hHW hHH r hrow
      rw [b1]
      show _ + u32 (tex.Width * 4) ≤ _
      rw [hsize] at hlen
      omega)
  rw [hpf]
  exact ⟨crop, vb, hh⟩

/-- C21: let a send plugin run from its initial state through any sequence of
`InitGL`, `DeInitGL`, ticks, frame-rate changes and worker steps in which every
input texture has `Width <= HardwareWidth`, `Height <= HardwareHeight` and
`HardwareWidth * HardwareHeight * 4 < 2^32`, and let `s` be the state reached.
(1) If a transfer is pending in `s`, its descriptor `(w, h, hw, stride)`
satisfies for every `row < h`: the `uint32_t` source offset is
`(h - 1 - row) * hw * 4` without wrap-around and
`(h - 1 - row) * hw * 4 + stride <= mPBOSize`; the `uint32_t` destination offset
is `row * stride` and `row * stride + stride <= stride * h`.
(2) A tick started in `s` either leaves the crop buffer and the video buffer
alone or harvests exactly that pending descriptor, with a transfer pending in
`s`. (3) Given a mapped buffer of at least `mPBOSize` bytes the tick completes:
no copy of the harvest leaves the mapped buffer or the crop buffer. -/
theorem C21_harvest_in_bounds (actions : List TxAction) (hok : ∀ a ∈ actions, a.texOk)
    (s : OMTSend) (hrun : OMTSend.runActions {} actions = some s) :
    (s.mPBOReady = true → ∀ row, row < s.mPending.h →
      srcOffset s.mPending row = (s.mPending.h - 1 - row) * s.mPending.hw * 4 ∧
      (s.mPending.h - 1 - row) * s.mPending.hw * 4 + s.mPending.stride ≤ s.mPBOSize ∧
      dstOffset s.mPending row = row * s.mPending.stride ∧
      row * s.mPending.stride + s.mPending.stride ≤ s.mPending.stride * s.mPending.h) ∧
    (∀ input mapped s1 r, s.ProcessOpenGL input mapped = some (s1, r) →
      (s1.mVideoBuffer = s.mVideoBuffer ∧ s1.mCropBuf = s.mCropBuf) ∨
      (s.mPBOReady = true ∧ ∃ src, mapped = some src ∧
        harvest s.mPending src s.mCropBuf s.mVideoBuffer
          = some (s1.mCropBuf, s1.mVideoBuffer))) ∧
    (∀ input mapped, (∀ src, mapped = some src → s.mPBOSize ≤ src.length) →
      ∃ s1 r, s.ProcessOpenGL input mapped = some (s1, r)) := by
  have hs : s.readbackOk :=
    inv_run_tx actions {} ⟨fun h => absurd h (by decide), Or.inl rfl, Or.inr rfl⟩ hok s hrun
  refine ⟨?_, ?_, ?_⟩
  · intro hr row hrow
    obtain ⟨tex, hp, _, hHW, hHH, hpf, hsize⟩ := hs.1 hr
    rw [hpf] at hrow ⊢
    rw [hsize]
    exact pending_bounds tex hp hHW hHH row hrow
  · intro input mapped s1 r htick
    rcases tick_cases s input mapped s1 r hs.2.2 htick with
      ⟨_, _, _, c4, c5, _⟩ | ⟨tex, _, _, _, _, _, _, _, _, _, c5⟩
    · exact Or.inl ⟨c4, c5⟩
    · rcases c5 with c6 | ⟨hr, _, src, hm, hv⟩
      · exact Or.inl c6
      · exact Or.inr ⟨hr, src, hm, hv⟩
  · intro input mapped hlen
    cases htick : s.ProcessOpenGL input mapped with
    | some p => exact ⟨p.1, p.2, rfl⟩
    | none =>
      obtain ⟨hr, src, hm, hv⟩ := tick_none s input mapped hs.2.2 htick
      obtain ⟨crop, vb, hh⟩ := harvest_pending_ok s hs hr src (hlen src hm)
      rw [hh] at hv
      cases hv

/-- Witness for C21: the sample run, which harvests twice at 4x2, resizes to 8x2
and harvests again, ends in `sampleTxFinal` with the descriptor `(2, 2, 8, 8)`
pending and 64 bytes recorded. -/
theorem C21_harvest_in_bounds_witness :
    (sampleTxFinal.mPBOReady = true → ∀ row, row < sampleTxFinal.mPending.h →
      srcOffset sampleTxFinal.mPending row
        = (sampleTxFinal.mPending.h - 1 - row) * sampleTxFinal.mPending.hw * 4 ∧
      (sampleTxFinal.mPending.h - 1 - row) * sampleTxFinal.mPending.hw * 4
        + sampleTxFinal.mPending.stride ≤ sampleTxFinal.mPBOSize ∧
      dstOffset sampleTxFinal.mPending row = row * sampleTxFinal.mPending.stride ∧
      row * sampleTxFinal.mPending.stride + sampleTxFinal.mPending.stride
        ≤ sampleTxFinal.mPending.stride * sampleTxFinal.mPending.h) ∧
    (∀ input mapped s1 r, sampleTxFinal.ProcessOpenGL input mapped = some (s1, r) →
      (s1.mVideoBuffer = sampleTxFinal.mVideoBuffer ∧ s1.mCropBuf = sampleTxFinal.mCropBuf) ∨
      (sampleTxFinal.mPBOReady = true ∧ ∃ src, mapped = some src ∧
        harvest sampleTxFinal.mPending src sampleTxFinal.mCropBuf sampleTxFinal.mVideoBuffer
          = some (s1.mCropBuf, s1.mVideoBuffer))) ∧
    (∀ input mapped, (∀ src, mapped = some src → sampleTxFinal.mPBOSize ≤ src.length) →
      ∃ s1 r, sampleTxFinal.ProcessOpenGL input mapped = some (s1, r)) :=
  C21_harvest_in_bounds sampleTxActions (by decide) sampleTxFinal (by decide)

end FFGLOMT
